import Mathlib

/-!
# Verification development for the cronos-mcp x402 payment engine

Shallow embedding of the payment-authorization protocol core:
* core data model (`@cronos-mcp/core` types and constants),
* `BudgetManager` (`client-sdk/budget.ts`),
* `PaymentHandler` and `X402Middleware` (`payment/handler.ts`, `server-sdk/middleware.ts`),
* the per-tool HTTP route of `MCPServer.setupToolRoutes` (`server-sdk/server.ts`),
* the `FacilitatorClient` retry loop (`payment/facilitator.ts`) and the generic
  `retry` helper of `core/utils.ts`,
* the header codec: `encodePaymentHeader`/`parsePaymentHeader` (`core/utils.ts`)
  and `createPaymentHeader`/`decodePaymentHeader` (`payment/signing.ts`),
  together with byte-exact models of base64, UTF-8 and the JSON
  stringify/parse pair they delegate to.

TypeScript `bigint` values are modelled as `Int`, JS integer-valued `number`s
as `Nat`, thrown exceptions as `Except`/`Option`, and the facilitator /
wall-clock / randomness effects as explicit oracle parameters.
-/

namespace CronosMCP

/-- `PaymentRequirements` from `core/types/index.ts` (the two optional
`Record<string, unknown>` fields `outputSchema`/`extra` are never set by this
code base and are omitted). -/
structure PaymentRequirements where
  scheme : String
  network : String
  maxAmountRequired : String
  resource : String
  description : String
  mimeType : String
  payTo : String
  maxTimeoutSeconds : Nat
  asset : String
deriving DecidableEq, Repr

/-- The flat wire payload, `CronosPaymentPayload` from `payment/signing.ts`
(inner `payload` object). -/
structure PaymentPayloadFields where
  from_ : String
  to_ : String
  value : String
  validAfter : Nat
  validBefore : Nat
  nonce : String
  signature : String
  asset : String
deriving DecidableEq, Repr

/-- `CronosPaymentPayload` from `payment/signing.ts` (= `PaymentPayload` in
`core/types/index.ts`): flat structure, no nested `authorization`. -/
structure CronosPaymentPayload where
  x402Version : Nat
  scheme : String
  network : String
  payload : PaymentPayloadFields
deriving DecidableEq, Repr

/-- `PricedTool` from `core/types/index.ts`; the `inputSchema` record and the
handler are carried separately by the embedding of the route. -/
structure PricedTool where
  name : String
  description : String
  price : String
deriving DecidableEq, Repr

/-- `PaymentRecord` from `core/types/index.ts`. -/
structure PaymentRecord where
  id : String
  toolName : String
  amount : String
  payer : String
  txHash : String
  timestamp : Nat
  status : String
deriving DecidableEq, Repr

/-- `VerifyResponse` from `payment/facilitator.ts`. -/
structure VerifyResponse where
  isValid : Bool
  invalidReason : Option String
  payer : Option String
deriving DecidableEq, Repr

/-- The JSON body a well-formed settle response carries
(`data` in `FacilitatorClient.settle`). -/
structure SettleData where
  event : Option String
  txHash : Option String
  from_ : Option String
  to_ : Option String
  value : Option String
  blockNumber : Option Nat
  network : Option String
  timestamp : Option String
  error : Option String
deriving DecidableEq, Repr

/-- `SettleResponse` from `payment/facilitator.ts`, as built by the mapping at
the end of `FacilitatorClient.settle`. -/
structure SettleResponse where
  success : Bool
  event : Option String
  txHash : Option String
  transaction : Option String
  from_ : Option String
  to_ : Option String
  value : Option String
  blockNumber : Option Nat
  network : Option String
  timestamp : Option String
  error : Option String
  errorReason : Option String
deriving DecidableEq, Repr

/-- `BudgetTransaction` from `core/types/index.ts`. -/
structure BudgetTransaction where
  toolName : String
  serverUrl : String
  amount : String
  txHash : String
  timestamp : Nat
deriving DecidableEq, Repr

/-- `BudgetState` from `core/types/index.ts`; `total`/`spent`/`remaining` are
decimal strings in the source (`bigint.toString()`). -/
structure BudgetState where
  total : String
  spent : String
  remaining : String
  transactions : List BudgetTransaction
deriving DecidableEq, Repr

/-! ## JS `BigInt(string)` conversion

`BigInt(s)` trims whitespace, maps the empty remainder to `0`, accepts an
optional sign followed by decimal digits, and throws a `SyntaxError`
otherwise.  (Radix prefixes such as `0x` are accepted by JS but never occur
in this code base and are not modelled.)  The throw is modelled as `none`. -/

/-- Decimal value of a digit list, `none` if empty or a non-digit occurs. -/
def digitsVal : List Char → Option Nat
  | [] => none
  | cs =>
    if cs.all (·.isDigit) then
      some (cs.foldl (fun a c => a * 10 + (c.toNat - '0'.toNat)) 0)
    else none

/-- A JS string-whitespace character (the set `BigInt` strips). -/
def jsStrWs (c : Char) : Bool :=
  c = ' ' || c = '\t' || c = '\n' || c = '\r' || c.toNat = 11 || c.toNat = 12

/-- JS `BigInt(string)`; `none` models the thrown `SyntaxError`. -/
def jsBigInt? (s : String) : Option Int :=
  let t := ((s.data.dropWhile jsStrWs).reverse.dropWhile jsStrWs).reverse
  if t.isEmpty then some 0
  else
    match t with
    | '+' :: rest => (digitsVal rest).map (fun n => (n : Int))
    | '-' :: rest => (digitsVal rest).map (fun n => -(n : Int))
    | cs => (digitsVal cs).map (fun n => (n : Int))

/-! ## BudgetManager (`client-sdk/budget.ts`)

State of an instance: fields `total`, `spent` (`bigint`), `transactions`.
The constructor and the amount conversions use `BigInt(string)`, which can
throw on malformed decimals; those operations therefore return `Option`. -/

/-- The private instance state of `BudgetManager`. -/
structure BudgetManager where
  total : Int
  spent : Int
  transactions : List BudgetTransaction
deriving DecidableEq, Repr

namespace BudgetManager

/-- `new BudgetManager(totalBudget)`: `total = BigInt(totalBudget)`,
`spent = 0n`, no transactions. -/
def create (totalBudget : String) : Option BudgetManager := do
  return { total := (← jsBigInt? totalBudget), spent := 0, transactions := [] }

/-- `canSpend(amount)`: `this.spent + BigInt(amount) <= this.total`. -/
def canSpend (m : BudgetManager) (amount : String) : Option Bool := do
  return decide (m.spent + (← jsBigInt? amount) ≤ m.total)

/-- The argument of `recordSpending` (`Omit<BudgetTransaction, 'timestamp'>`). -/
structure SpendInput where
  toolName : String
  serverUrl : String
  amount : String
  txHash : String
deriving DecidableEq, Repr

/-- `recordSpending(transaction)`: appends `{...transaction, timestamp}` and
adds `BigInt(transaction.amount)` to `spent`. `now` stands for `Date.now()`. -/
def recordSpending (m : BudgetManager) (t : SpendInput) (now : Nat) :
    Option BudgetManager := do
  let amt ← jsBigInt? t.amount
  return { m with
    transactions := m.transactions ++
      [{ toolName := t.toolName, serverUrl := t.serverUrl, amount := t.amount,
         txHash := t.txHash, timestamp := now }],
    spent := m.spent + amt }

/-- `getState()`: `remaining` is computed as `total - spent` on each call,
never read from a stored field. -/
def getState (m : BudgetManager) : BudgetState :=
  { total := toString m.total
    spent := toString m.spent
    remaining := toString (m.total - m.spent)
    transactions := m.transactions }

/-- `getRemaining()`: `this.total - this.spent`. -/
def getRemaining (m : BudgetManager) : Int := m.total - m.spent

/-- `getSpent()`. -/
def getSpent (m : BudgetManager) : Int := m.spent

/-- `reset()`. -/
def reset (m : BudgetManager) : BudgetManager :=
  { m with spent := 0, transactions := [] }

/-- Run a sequence of `recordSpending` calls (each with its `Date.now()`
value); `none` as soon as one of them throws. -/
def recordAll (m : BudgetManager) : List (SpendInput × Nat) → Option BudgetManager
  | [] => some m
  | (t, now) :: rest => do recordAll (← recordSpending m t now) rest

end BudgetManager

/-- Sum of the parsed amounts of a list of spend inputs. -/
def spendSum (ts : List (BudgetManager.SpendInput × Nat)) : Option Int :=
  ts.foldlM (fun acc t => do return acc + (← jsBigInt? t.1.amount)) (0 : Int)

/-! ## Constants (`core/constants/index.ts`) -/

/-- One entry of `CRONOS_NETWORKS`. -/
structure NetworkConfig where
  name : String
  chainId : Nat
  networkId : String
  usdcAddress : String
  usdcDecimals : Nat
deriving DecidableEq, Repr

/-- The `'testnet' | 'mainnet'` union used throughout the configs. -/
inductive Network where
  | testnet
  | mainnet
deriving DecidableEq, Repr

/-- `CRONOS_NETWORKS.TESTNET`. -/
def CRONOS_NETWORKS.TESTNET : NetworkConfig :=
  { name := "Cronos Testnet", chainId := 338, networkId := "cronos-testnet",
    usdcAddress := "0xc01efAaF7C5C61bEbFAeb358E1161b537b8bC0e0", usdcDecimals := 6 }

/-- `CRONOS_NETWORKS.MAINNET`. -/
def CRONOS_NETWORKS.MAINNET : NetworkConfig :=
  { name := "Cronos Mainnet", chainId := 25, networkId := "cronos-mainnet",
    usdcAddress := "0xf951eC28187D9E5Ca673Da8FE6757E6f0Be5F77C", usdcDecimals := 6 }

/-- The `network === 'mainnet' ? CRONOS_NETWORKS.MAINNET : CRONOS_NETWORKS.TESTNET`
selection that recurs in the sources. -/
def networkConfigOf : Network → NetworkConfig
  | .mainnet => CRONOS_NETWORKS.MAINNET
  | .testnet => CRONOS_NETWORKS.TESTNET

/-- `TIMEOUTS` from `core/constants/index.ts` (seconds). -/
def TIMEOUTS__PAYMENT_VALIDITY : Nat := 300

/-- `X402_VERSION`. -/
def X402_VERSION : Nat := 1

/-! ## JS truthiness helpers -/

/-- JS `a || b` for `a : string | null | undefined`: `null`, `undefined` and
the empty string are falsy. -/
def jsOrStr (a : Option String) (b : String) : String :=
  match a with
  | some s => if s = "" then b else s
  | none => b

/-- JS truthiness of an optional string (`if (x)` on `string | undefined`). -/
def jsTruthyStr : Option String → Bool
  | some s => s ≠ ""
  | none => false

/-- A value thrown by JS code: either an `Error` with its `message`, or a
non-`Error` value (the code only ever distinguishes these two cases via
`error instanceof Error`). -/
inductive JsThrown where
  | error (message : String)
  | nonError
deriving DecidableEq, Repr

/-- `error instanceof Error ? error.message : <fallback>`. -/
def thrownMessage (e : JsThrown) (fallback : String) : String :=
  match e with
  | .error message => message
  | .nonError => fallback

/-! ## PaymentHandler (`payment/handler.ts`)

The facilitator's answers, the generated record id (`crypto.randomUUID()`)
and the clock (`Date.now()`) are oracle inputs; the `payments`
`Map<string, PaymentRecord>` is explicit state (insertion-ordered key-value
list, `Map.set` overwrites an existing key).  Each run also produces the
ordered list of observable protocol events, used to state the ordering
invariant. -/

/-- Observable events of one request, in execution order. -/
inductive Event where
  | verifyCall
  | settleCall
  | ledgerWrite
  | handlerExec
deriving DecidableEq, Repr

/-- Oracle for one `processPayment` run: the awaited results of
`facilitator.verify` / `facilitator.settle` (either a returned value or a
thrown one), the fresh UUID and the clock. -/
structure FacOracle where
  verifyResult : Except JsThrown VerifyResponse
  settleResult : Except JsThrown SettleResponse
  freshId : String
  now : Nat
deriving Repr

/-- The `payments` map of a `PaymentHandler` instance. -/
def Ledger := List (String × PaymentRecord)
deriving DecidableEq

/-- JS `Map.set`: overwrite the entry with the same key, else append. -/
def mapSet (st : List (String × PaymentRecord)) (k : String) (v : PaymentRecord) :
    List (String × PaymentRecord) :=
  if st.any (fun p => p.1 = k) then
    st.map (fun p => if p.1 = k then (k, v) else p)
  else st ++ [(k, v)]

namespace PaymentHandler

/-- Configuration fields of a `PaymentHandler` instance that the embedded
operations read (`paymentAddress`, `network`). -/
structure Config where
  paymentAddress : String
  network : Network
deriving DecidableEq, Repr

/-- `createPaymentRequirements(tool, resource)`. -/
def createPaymentRequirements (cfg : Config) (tool : PricedTool) (resource : String) :
    PaymentRequirements :=
  let networkConfig := networkConfigOf cfg.network
  { scheme := "exact"
    network := networkConfig.networkId
    maxAmountRequired := tool.price
    resource := resource
    description := tool.description
    mimeType := "application/json"
    payTo := cfg.paymentAddress
    maxTimeoutSeconds := 300
    asset := networkConfig.usdcAddress }

/-- Body of the 402 response built by `create402Response`. -/
structure Body402 where
  error : String
  paymentRequirements : PaymentRequirements
  accepts : List PaymentRequirements
deriving DecidableEq, Repr

/-- The `{status, body}` value returned by `create402Response`. -/
structure Response402 where
  status : Nat
  body : Body402
deriving DecidableEq, Repr

/-- `create402Response(tool, resource)`. -/
def create402Response (cfg : Config) (tool : PricedTool) (resource : String) :
    Response402 :=
  let requirements := createPaymentRequirements cfg tool resource
  { status := 402
    body := { error := "Payment Required"
              paymentRequirements := requirements
              accepts := [requirements] } }

/-- `processPayment(paymentHeader, tool, resource)`: verify, then settle,
then write the ledger record.  Returns the new ledger, the event trace and
either the record or the thrown error. -/
def processPayment (cfg : Config) (st : List (String × PaymentRecord))
    (o : FacOracle) (tool : PricedTool) (resource : String) :
    List (String × PaymentRecord) × List Event × Except JsThrown PaymentRecord :=
  let _paymentRequirements := createPaymentRequirements cfg tool resource
  match o.verifyResult with
  | .error e => (st, [.verifyCall], .error e)
  | .ok verifyResult =>
    if !verifyResult.isValid then
      (st, [.verifyCall],
        .error (.error ("Payment invalid: " ++ jsOrStr verifyResult.invalidReason "unknown")))
    else
      match o.settleResult with
      | .error e => (st, [.verifyCall, .settleCall], .error e)
      | .ok settleResult =>
        if !settleResult.success then
          (st, [.verifyCall, .settleCall],
            .error (.error ("Settlement failed: " ++ jsOrStr settleResult.errorReason "unknown")))
        else
          let record : PaymentRecord :=
            { id := o.freshId
              toolName := tool.name
              amount := tool.price
              payer := jsOrStr verifyResult.payer "unknown"
              txHash := jsOrStr settleResult.transaction ""
              timestamp := o.now
              status := "settled" }
          (mapSet st record.id record, [.verifyCall, .settleCall, .ledgerWrite], .ok record)

/-- `getPayments()`. -/
def getPayments (st : List (String × PaymentRecord)) : List PaymentRecord :=
  st.map (fun p => p.2)

/-- `getTotalRevenue()`: `reduce((sum, p) => sum + BigInt(p.amount), 0n)`;
`none` models the throw on a malformed stored amount. -/
def getTotalRevenue (st : List (String × PaymentRecord)) : Option Int :=
  (getPayments st).foldlM (fun sum p => do return sum + (← jsBigInt? p.amount)) (0 : Int)

end PaymentHandler

/-! ## X402Middleware (`server-sdk/middleware.ts`) -/

/-- `MiddlewareResult` from `server-sdk/middleware.ts`. -/
structure MiddlewareResult where
  proceed : Bool
  paymentRequired : Option PaymentHandler.Response402
  payment : Option PaymentRecord
  error : Option String
deriving DecidableEq, Repr

namespace X402Middleware

/-- `X402Middleware.process(context)`.  `none` models the uncaught throw of
`BigInt(tool.price)` on a malformed price (nothing in `process` catches it). -/
def process (cfg : PaymentHandler.Config) (tool : PricedTool)
    (paymentHeader : Option String) (o : FacOracle)
    (st : List (String × PaymentRecord)) :
    Option (List (String × PaymentRecord) × List Event × MiddlewareResult) := do
  let price ← jsBigInt? tool.price
  if price = 0 then
    return (st, [], { proceed := true, paymentRequired := none, payment := none, error := none })
  else if !jsTruthyStr paymentHeader then
    return (st, [],
      { proceed := false
        paymentRequired := some (PaymentHandler.create402Response cfg tool ("tool://" ++ tool.name))
        payment := none
        error := none })
  else
    match PaymentHandler.processPayment cfg st o tool ("tool://" ++ tool.name) with
    | (st', ev, .ok payment) =>
      return (st', ev, { proceed := true, paymentRequired := none,
                         payment := some payment, error := none })
    | (st', ev, .error e) =>
      return (st', ev,
        { proceed := false, paymentRequired := none, payment := none
          error := some (thrownMessage e "Payment failed") })

end X402Middleware

/-! ## The per-tool route of `MCPServer.setupToolRoutes` (`server-sdk/server.ts`)

The route reads the `x-payment` header, runs the middleware, and then either
relays the challenge, relays the payment error as a 402, or executes the
tool handler.  The handler's outcome (value or thrown error) is an oracle
input; `ω` is the handler's result type. -/

/-- Response body of the tool route. -/
inductive RouteBody (ω : Type) where
  | challenge (body : PaymentHandler.Body402)
  | paymentInvalid (error : String)
  | success (result : ω) (payment : Option PaymentRecord)
  | execFailed (error : String)
deriving DecidableEq, Repr

/-- `{status, headers, body}` of the tool route (headers are always empty
here and omitted). -/
structure RouteResponse (ω : Type) where
  status : Nat
  body : RouteBody ω
deriving DecidableEq, Repr

/-- The `POST /tools/:name` route handler registered by `setupToolRoutes`,
with the event trace extended by `handlerExec` at the moment
`tool.handler(ctx.body)` is invoked. -/
def toolRoute {ω : Type} (cfg : PaymentHandler.Config) (tool : PricedTool)
    (paymentHeader : Option String) (o : FacOracle)
    (handlerResult : Except JsThrown ω)
    (st : List (String × PaymentRecord)) :
    Option (List (String × PaymentRecord) × List Event × RouteResponse ω) := do
  let (st', ev, result) ← X402Middleware.process cfg tool paymentHeader o st
  match result.paymentRequired with
  | some pr => return (st', ev, { status := pr.status, body := .challenge pr.body })
  | none =>
    if jsTruthyStr result.error then
      return (st', ev,
        { status := 402
          body := .paymentInvalid ("Payment invalid: " ++ result.error.getD "") })
    else
      match handlerResult with
      | .ok toolResult =>
        return (st', ev ++ [.handlerExec],
          { status := 200, body := .success toolResult result.payment })
      | .error e =>
        return (st', ev ++ [.handlerExec],
          { status := 500
            body := .execFailed (thrownMessage e "Tool execution failed") })

/-! ## Retry loops

Two distinct helpers exist in the sources:
* `retry` in `payment/facilitator.ts` — waits `delay * (i + 1)` between
  attempts (linear backoff); used by `FacilitatorClient.verify`/`settle`;
* `retry` in `core/utils.ts` — waits `baseDelay * 2 ** attempt`
  (exponential backoff); exported from the core package, not used by the
  facilitator client.

The behaviour of `fn` at each attempt is an oracle `f : Nat → Except ε α`.
A run records the outcome (`Except (Option ε) α`, where `.error none` is the
`throw lastError` with `lastError` still `undefined`, possible only when
`retries = 0`), the number of attempts made, and the list of sleeps
performed, in order. -/

/-- Result of a retry-loop run. -/
structure RetryTrace (ε α : Type) where
  outcome : Except (Option ε) α
  attempts : Nat
  sleeps : List Nat
deriving Repr

/-- The common `for (let i = 0; i < retries; i++) { try … catch … sleep }`
loop, parametrised by the per-attempt wait `delayFn i`.  The loop guard
`i < retries` is carried structurally as the remaining iteration count
(first argument, always `retries - i`). -/
def retryLoop (f : Nat → Except ε α) (retries : Nat) (delayFn : Nat → Nat) :
    Nat → Nat → Option ε → List Nat → RetryTrace ε α
  | 0, i, lastError, sleeps => ⟨.error lastError, i, sleeps⟩
  | remaining + 1, i, _lastError, sleeps =>
    match f i with
    | .ok a => ⟨.ok a, i + 1, sleeps⟩
    | .error e =>
      if i < retries - 1 then
        retryLoop f retries delayFn remaining (i + 1) (some e) (sleeps ++ [delayFn i])
      else
        retryLoop f retries delayFn remaining (i + 1) (some e) sleeps

namespace Facilitator

/-- `retry(fn, retries, delay = 1000)` from `payment/facilitator.ts`:
wait `delay * (i + 1)` after failed attempt `i` (except the last). -/
def retry (f : Nat → Except ε α) (retries : Nat) (delay : Nat := 1000) :
    RetryTrace ε α :=
  retryLoop f retries (fun i => delay * (i + 1)) retries 0 none []

end Facilitator

namespace CoreUtils

/-- `retry(fn, maxRetries = 3, baseDelay = 1000)` from `core/utils.ts`:
wait `baseDelay * 2 ** attempt` after failed attempt `attempt` (except the
last). -/
def retry (f : Nat → Except ε α) (maxRetries : Nat := 3) (baseDelay : Nat := 1000) :
    RetryTrace ε α :=
  retryLoop f maxRetries (fun attempt => baseDelay * 2 ^ attempt) maxRetries 0 none []

end CoreUtils

/-! ## FacilitatorClient (`payment/facilitator.ts`)

One verify/settle attempt performs `fetch` (may throw: network error or
timeout abort), checks `response.ok`, and `JSON.parse`s the body (may throw
on a malformed body).  An attempt's observable outcome is one of these
cases; the whole call is the retry loop over the attempt oracle. -/

/-- Outcome of one verify attempt. -/
inductive VerifyAttempt where
  | netFail (message : String)
  | httpError (status : Nat) (text : String)
  | parseFail (message : String)
  | wellFormed (r : VerifyResponse)
deriving Repr

/-- Outcome of one settle attempt (a well-formed body parses to the raw
facilitator JSON, before the field mapping). -/
inductive SettleAttempt where
  | netFail (message : String)
  | httpError (status : Nat) (text : String)
  | parseFail (message : String)
  | wellFormed (d : SettleData)
deriving Repr

/-- A verify attempt is a transport-level failure (fetch threw, or the
response status was not ok). -/
def VerifyAttempt.isTransportFail : VerifyAttempt → Bool
  | .netFail _ => true
  | .httpError _ _ => true
  | _ => false

/-- A settle attempt is a transport-level failure. -/
def SettleAttempt.isTransportFail : SettleAttempt → Bool
  | .netFail _ => true
  | .httpError _ _ => true
  | _ => false

/-- The body of the arrow function passed to `retry` in
`FacilitatorClient.verify`: throw on fetch failure, throw
`` `Verify failed: ${status} - ${text}` `` on `!response.ok`, throw on a
parse failure, otherwise return the parsed `VerifyResponse`. -/
def verifyAttemptResult : VerifyAttempt → Except JsThrown VerifyResponse
  | .netFail m => .error (.error m)
  | .httpError status text =>
    .error (.error ("Verify failed: " ++ toString status ++ " - " ++ text))
  | .parseFail m => .error (.error m)
  | .wellFormed r => .ok r

/-- The mapping applied at the end of `FacilitatorClient.settle`:
`success := data.event === 'payment.settled'`, `transaction := data.txHash`,
`errorReason := data.error`. -/
def settleResponseOfData (d : SettleData) : SettleResponse :=
  { success := d.event = some "payment.settled"
    event := d.event
    txHash := d.txHash
    transaction := d.txHash
    from_ := d.from_
    to_ := d.to_
    value := d.value
    blockNumber := d.blockNumber
    network := d.network
    timestamp := d.timestamp
    error := d.error
    errorReason := d.error }

/-- The body of the arrow function passed to `retry` in
`FacilitatorClient.settle`. -/
def settleAttemptResult : SettleAttempt → Except JsThrown SettleResponse
  | .netFail m => .error (.error m)
  | .httpError status text =>
    .error (.error ("Settle failed: " ++ toString status ++ " - " ++ text))
  | .parseFail m => .error (.error m)
  | .wellFormed d => .ok (settleResponseOfData d)

namespace FacilitatorClient

/-- `FacilitatorClient.verify(paymentHeader, paymentRequirements)`:
`retry(attempt, this.retries)` over the attempt oracle. -/
def verify (attempts : Nat → VerifyAttempt) (retries : Nat) :
    RetryTrace JsThrown VerifyResponse :=
  Facilitator.retry (fun i => verifyAttemptResult (attempts i)) retries

/-- `FacilitatorClient.settle(paymentHeader, paymentRequirements)`. -/
def settle (attempts : Nat → SettleAttempt) (retries : Nat) :
    RetryTrace JsThrown SettleResponse :=
  Facilitator.retry (fun i => settleAttemptResult (attempts i)) retries

end FacilitatorClient

/-! ## Signed payment payload construction

Two implementations build the signed `CronosPaymentPayload`:
`createPaymentHeader` in `payment/signing.ts` and the private
`MCPClient.createPaymentHeader` in `client-sdk/client.ts`.  The wallet
signature and the random nonce are oracle inputs; `nowMs` stands for
`Date.now()` (milliseconds). -/

/-- `calculateValidBefore(timeoutSeconds)` from `core/utils.ts`:
`Math.floor(Date.now() / 1000) + timeoutSeconds`. -/
def calculateValidBefore (timeoutSeconds : Nat) (nowMs : Nat) : Nat :=
  nowMs / 1000 + timeoutSeconds

namespace Signing

/-- The payload built by `createPaymentHeader` in `payment/signing.ts`:
`validAfter = 0`, `validBefore = Math.floor(Date.now() / 1000) +
TIMEOUTS.PAYMENT_VALIDITY` (the fixed 300 s constant), `scheme =
requirements.scheme || 'exact'`. -/
def createPaymentPayload (walletAddress : String) (requirements : PaymentRequirements)
    (nonce signature : String) (nowMs : Nat) : CronosPaymentPayload :=
  let validAfter := 0
  let validBefore := nowMs / 1000 + TIMEOUTS__PAYMENT_VALIDITY
  { x402Version := X402_VERSION
    scheme := jsOrStr (some requirements.scheme) "exact"
    network := requirements.network
    payload :=
      { from_ := walletAddress
        to_ := requirements.payTo
        value := requirements.maxAmountRequired
        validAfter := validAfter
        validBefore := validBefore
        nonce := nonce
        signature := signature
        asset := requirements.asset } }

end Signing

namespace MCPClient

/-- The payload built by the private `MCPClient.createPaymentHeader` in
`client-sdk/client.ts`: `validBefore =
calculateValidBefore(requirements.maxTimeoutSeconds)`, `validAfter = 0`,
`scheme = requirements.scheme`. -/
def createPaymentPayload (walletAddress : String) (requirements : PaymentRequirements)
    (nonce signature : String) (nowMs : Nat) : CronosPaymentPayload :=
  let validBefore := calculateValidBefore requirements.maxTimeoutSeconds nowMs
  { x402Version := X402_VERSION
    scheme := requirements.scheme
    network := requirements.network
    payload :=
      { from_ := walletAddress
        to_ := requirements.payTo
        value := requirements.maxAmountRequired
        validAfter := 0
        validBefore := validBefore
        nonce := nonce
        signature := signature
        asset := requirements.asset } }

end MCPClient

/-! ## Base64 (Node `Buffer.toString('base64')` / `Buffer.from(s, 'base64')`)

Bytes are `Nat`s below 256.  Node's base64 decoder is forgiving: characters
outside the alphabet (including `=` padding and whitespace) are skipped, and
the remaining 6-bit digits are consumed in groups of four (a trailing group
of two or three digits yields one or two bytes; a lone trailing digit is
dropped). -/

/-- Character for a 6-bit digit (`d < 64`). -/
def b64CharOf (d : Nat) : Char :=
  if d < 26 then Char.ofNat (65 + d)
  else if d < 52 then Char.ofNat (97 + (d - 26))
  else if d < 62 then Char.ofNat (48 + (d - 52))
  else if d = 62 then '+'
  else '/'

/-- 6-bit digit of an alphabet character, `none` outside the alphabet. -/
def b64DigitOf? (c : Char) : Option Nat :=
  if 'A' ≤ c ∧ c ≤ 'Z' then some (c.toNat - 65)
  else if 'a' ≤ c ∧ c ≤ 'z' then some (c.toNat - 97 + 26)
  else if '0' ≤ c ∧ c ≤ '9' then some (c.toNat - 48 + 52)
  else if c = '+' then some 62
  else if c = '/' then some 63
  else none

/-- Base64-encode a byte list (with `=` padding). -/
def b64Encode : List Nat → List Char
  | b0 :: b1 :: b2 :: rest =>
    let n := b0 * 65536 + b1 * 256 + b2
    b64CharOf (n / 262144) :: b64CharOf (n / 4096 % 64) ::
      b64CharOf (n / 64 % 64) :: b64CharOf (n % 64) :: b64Encode rest
  | [b0, b1] =>
    let n := b0 * 1024 + b1 * 4
    [b64CharOf (n / 4096), b64CharOf (n / 64 % 64), b64CharOf (n % 64), '=']
  | [b0] =>
    let n := b0 * 16
    [b64CharOf (n / 64), b64CharOf (n % 64), '=', '=']
  | [] => []

/-- Reassemble bytes from a stream of 6-bit digits, four at a time. -/
def b64DecodeDigits : List Nat → List Nat
  | d0 :: d1 :: d2 :: d3 :: rest =>
    (d0 * 4 + d1 / 16) :: (d1 % 16 * 16 + d2 / 4) :: (d2 % 4 * 64 + d3) ::
      b64DecodeDigits rest
  | [d0, d1, d2] => [d0 * 4 + d1 / 16, d1 % 16 * 16 + d2 / 4]
  | [d0, d1] => [d0 * 4 + d1 / 16]
  | [_] => []
  | [] => []

/-- Node-style forgiving base64 decode of a character list. -/
def b64Decode (s : List Char) : List Nat :=
  b64DecodeDigits (s.filterMap b64DigitOf?)

/-! ## UTF-8 (Node `Buffer.from(string)` / `buffer.toString('utf-8')`) -/

/-- UTF-8 encoding of one unicode scalar value. -/
def utf8EncodeChar (c : Char) : List Nat :=
  let v := c.toNat
  if v < 128 then [v]
  else if v < 2048 then [192 + v / 64, 128 + v % 64]
  else if v < 65536 then [224 + v / 4096, 128 + v / 64 % 64, 128 + v % 64]
  else [240 + v / 262144, 128 + v / 4096 % 64, 128 + v / 64 % 64, 128 + v % 64]

/-- UTF-8 encoding of a string, as a byte list. -/
def utf8Encode (s : String) : List Nat :=
  (s.data.map utf8EncodeChar).flatten

/-- Is a byte a UTF-8 continuation byte (`10xxxxxx`)? -/
def isCont (b : Nat) : Bool := 128 ≤ b && b < 192

/-- Decode one code point: given the leading byte and the remaining bytes,
produce the character and the bytes left over.  Invalid sequences produce
the U+FFFD replacement character (consuming only the leading byte), as
Node's `'utf-8'` decoder does. -/
def utf8Step (b : Nat) (rest : List Nat) : Char × List Nat :=
  if b < 128 then (Char.ofNat b, rest)
  else if b < 192 then ('�', rest)
  else if b < 224 then
    match rest with
    | b1 :: rest2 =>
      if isCont b1 then (Char.ofNat ((b - 192) * 64 + (b1 - 128)), rest2)
      else ('�', b1 :: rest2)
    | [] => ('�', [])
  else if b < 240 then
    match rest with
    | b1 :: b2 :: rest3 =>
      if isCont b1 && isCont b2 then
        (Char.ofNat ((b - 224) * 4096 + (b1 - 128) * 64 + (b2 - 128)), rest3)
      else ('�', b1 :: b2 :: rest3)
    | _ => ('�', [])
  else
    match rest with
    | b1 :: b2 :: b3 :: rest4 =>
      if isCont b1 && isCont b2 && isCont b3 then
        (Char.ofNat ((b - 240) * 262144 + (b1 - 128) * 4096 + (b2 - 128) * 64 + (b3 - 128)),
          rest4)
      else ('�', b1 :: b2 :: b3 :: rest4)
    | _ => ('�', [])

/-- UTF-8 decoding of a byte list. -/
def utf8Decode : List Nat → List Char
  | [] => []
  | b :: rest =>
    let step := utf8Step b rest
    step.1 :: utf8Decode step.2
termination_by l => l.length
decreasing_by
  have hle : (utf8Step b rest).2.length ≤ rest.length := by
    unfold utf8Step
    repeat' split
    all_goals simp_all
    all_goals omega
  simp_wf
  omega

/-! ## Decimal rendering of a natural number (for the JSON serializer) -/

/-- Character of a decimal digit (`d < 10`). -/
def digitChar (d : Nat) : Char := Char.ofNat (48 + d)

/-- Fuel-driven decimal rendering accumulator. -/
def natToCharsAux : Nat → Nat → List Char → List Char
  | 0, _, acc => acc
  | fuel + 1, n, acc =>
    if n < 10 then digitChar n :: acc
    else natToCharsAux fuel (n / 10) (digitChar (n % 10) :: acc)

/-- Decimal digit characters of `n` (what `JSON.stringify` emits for an
integer-valued JS number). -/
def natToChars (n : Nat) : List Char := natToCharsAux (n + 1) n []

/-! ## JSON values, `JSON.stringify` and `JSON.parse`

The JSON values this code base serializes are objects of strings and
non-negative integer-valued numbers, so `num` carries a `Nat`.  Object
fields are kept in insertion order, as JS objects and `JSON.stringify` do. -/

/-- A JSON value. -/
inductive Json where
  | null
  | bool (b : Bool)
  | num (n : Nat)
  | str (s : String)
  | arr (elems : List Json)
  | obj (fields : List (String × Json))

/-- `JSON.stringify`'s escaping of one string character. -/
def escapeChar (c : Char) : List Char :=
  if c = '"' then ['\\', '"']
  else if c = '\\' then ['\\', '\\']
  else if c.toNat = 8 then ['\\', 'b']
  else if c.toNat = 9 then ['\\', 't']
  else if c.toNat = 10 then ['\\', 'n']
  else if c.toNat = 12 then ['\\', 'f']
  else if c.toNat = 13 then ['\\', 'r']
  else if c.toNat < 32 then
    ['\\', 'u', '0', '0',
      (if c.toNat / 16 = 1 then '1' else '0'),
      (if c.toNat % 16 < 10 then Char.ofNat (48 + c.toNat % 16)
       else Char.ofNat (87 + c.toNat % 16))]
  else [c]

/-- `JSON.stringify` of a string (quotes and escapes). -/
def renderString (s : String) : List Char :=
  '"' :: (s.data.map escapeChar).flatten ++ ['"']

mutual

/-- `JSON.stringify` with no spacing argument: compact output. -/
def renderJson : Json → List Char
  | .null => "null".data
  | .bool true => "true".data
  | .bool false => "false".data
  | .num n => natToChars n
  | .str s => renderString s
  | .arr elems => '[' :: renderElems elems ++ [']']
  | .obj fields => '{' :: renderFields fields ++ ['}']

/-- Comma-separated array elements. -/
def renderElems : List Json → List Char
  | [] => []
  | [x] => renderJson x
  | x :: xs => renderJson x ++ ',' :: renderElems xs

/-- Comma-separated `"key":value` members. -/
def renderFields : List (String × Json) → List Char
  | [] => []
  | [(k, v)] => renderString k ++ ':' :: renderJson v
  | (k, v) :: fs => renderString k ++ ':' :: renderJson v ++ ',' :: renderFields fs

end

/-- JSON whitespace. -/
def isJsonWs (c : Char) : Bool :=
  c = ' ' || c = '\t' || c = '\n' || c = '\r'

/-- Skip leading JSON whitespace. -/
def skipWs (cs : List Char) : List Char := cs.dropWhile isJsonWs

/-- Value of a hexadecimal digit character. -/
def hexVal? (c : Char) : Option Nat :=
  if '0' ≤ c ∧ c ≤ '9' then some (c.toNat - 48)
  else if 'a' ≤ c ∧ c ≤ 'f' then some (c.toNat - 87)
  else if 'A' ≤ c ∧ c ≤ 'F' then some (c.toNat - 55)
  else none

/-- Parse the body of a JSON string literal (after the opening quote),
returning the content characters and the input after the closing quote.
Unescaped control characters are a syntax error, as in `JSON.parse`. -/
def parseStrBody : List Char → Option (List Char × List Char)
  | [] => none
  | c :: cs =>
    if c = '"' then some ([], cs)
    else if c = '\\' then
      match cs with
      | [] => none
      | e :: cs2 =>
        if e = '"' ∨ e = '\\' ∨ e = '/' then
          (parseStrBody cs2).map (fun r => (e :: r.1, r.2))
        else if e = 'b' then (parseStrBody cs2).map (fun r => (Char.ofNat 8 :: r.1, r.2))
        else if e = 't' then (parseStrBody cs2).map (fun r => (Char.ofNat 9 :: r.1, r.2))
        else if e = 'n' then (parseStrBody cs2).map (fun r => (Char.ofNat 10 :: r.1, r.2))
        else if e = 'f' then (parseStrBody cs2).map (fun r => (Char.ofNat 12 :: r.1, r.2))
        else if e = 'r' then (parseStrBody cs2).map (fun r => (Char.ofNat 13 :: r.1, r.2))
        else if e = 'u' then
          match cs2 with
          | h1 :: h2 :: h3 :: h4 :: cs3 =>
            match hexVal? h1, hexVal? h2, hexVal? h3, hexVal? h4 with
            | some v1, some v2, some v3, some v4 =>
              (parseStrBody cs3).map
                (fun r => (Char.ofNat (v1 * 4096 + v2 * 256 + v3 * 16 + v4) :: r.1, r.2))
            | _, _, _, _ => none
          | _ => none
        else none
    else if c.toNat < 32 then none
    else (parseStrBody cs).map (fun r => (c :: r.1, r.2))

/-- Consume a maximal run of decimal digits. -/
def parseDigits (acc : Nat) : List Char → Nat × List Char
  | [] => (acc, [])
  | c :: cs =>
    if c.isDigit then parseDigits (acc * 10 + (c.toNat - 48)) cs
    else (acc, c :: cs)

/-- Parse a JSON number.  Only the non-negative integer grammar is modelled:
the code base serializes only such numbers (versions and second-resolution
timestamps), so fractional/exponent/negative forms never occur on the
round-trip path; inputs using them are rejected rather than parsed. -/
def parseNum : List Char → Option (Nat × List Char)
  | [] => none
  | c :: cs =>
    if c.isDigit then some (parseDigits 0 (c :: cs))
    else none

mutual

/-- Parse one JSON value (recursion fuelled; every recursive call spends one
unit, so any fuel above the input's syntactic size is enough). -/
def parseValue : Nat → List Char → Option (Json × List Char)
  | 0, _ => none
  | fuel + 1, cs =>
    match skipWs cs with
    | [] => none
    | c :: rest =>
      if c = '{' then
        match skipWs rest with
        | [] => none
        | c2 :: rest2 =>
          if c2 = '}' then some (.obj [], rest2)
          else (parseMembers fuel (c2 :: rest2)).map (fun r => (.obj r.1, r.2))
      else if c = '[' then
        match skipWs rest with
        | [] => none
        | c2 :: rest2 =>
          if c2 = ']' then some (.arr [], rest2)
          else (parseElements fuel (c2 :: rest2)).map (fun r => (.arr r.1, r.2))
      else if c = '"' then
        (parseStrBody rest).map (fun r => (.str ⟨r.1⟩, r.2))
      else if c = 'n' then
        match rest with
        | 'u' :: 'l' :: 'l' :: rest2 => some (.null, rest2)
        | _ => none
      else if c = 't' then
        match rest with
        | 'r' :: 'u' :: 'e' :: rest2 => some (.bool true, rest2)
        | _ => none
      else if c = 'f' then
        match rest with
        | 'a' :: 'l' :: 's' :: 'e' :: rest2 => some (.bool false, rest2)
        | _ => none
      else if c.isDigit then
        (parseNum (c :: rest)).map (fun r => (.num r.1, r.2))
      else none

/-- Parse the members of a non-empty object, up to and including `}`. -/
def parseMembers : Nat → List Char → Option (List (String × Json) × List Char)
  | 0, _ => none
  | fuel + 1, cs =>
    match skipWs cs with
    | [] => none
    | c :: rest =>
      if c = '"' then do
        let (key, rest2) ← parseStrBody rest
        match skipWs rest2 with
        | [] => none
        | c2 :: rest3 =>
          if c2 = ':' then do
            let (v, rest4) ← parseValue fuel rest3
            match skipWs rest4 with
            | [] => none
            | c3 :: rest5 =>
              if c3 = ',' then
                (parseMembers fuel rest5).map (fun r => ((⟨key⟩, v) :: r.1, r.2))
              else if c3 = '}' then some ([(⟨key⟩, v)], rest5)
              else none
          else none
      else none

/-- Parse the elements of a non-empty array, up to and including `]`. -/
def parseElements : Nat → List Char → Option (List Json × List Char)
  | 0, _ => none
  | fuel + 1, cs => do
    let (v, rest) ← parseValue fuel cs
    match skipWs rest with
    | ',' :: rest2 => (parseElements fuel rest2).map (fun r => (v :: r.1, r.2))
    | ']' :: rest2 => some ([v], rest2)
    | _ => none

end

/-- `JSON.parse`: one value spanning the whole input (modulo whitespace);
`none` models the thrown `SyntaxError`. -/
def jsonParse (s : String) : Option Json :=
  match parseValue (s.data.length + 64) s.data with
  | some (j, rest) => if skipWs rest = [] then some j else none
  | none => none

/-! ## The header codec

`encodePaymentHeader` (`core/utils.ts`) is
`Buffer.from(JSON.stringify(payload)).toString('base64')`; the same
expression closes `createPaymentHeader` in `payment/signing.ts` and in
`client-sdk/client.ts`.  `parsePaymentHeader` (`core/utils.ts`) wraps
base64-decode + `JSON.parse` in a `try`/`catch` that rethrows the typed
`Error('Invalid payment header format')`; `decodePaymentHeader`
(`payment/signing.ts`) performs the same two steps with **no** `try`/`catch`,
so a `JSON.parse` `SyntaxError` escapes raw.  (`Buffer.from(s, 'base64')`
itself never throws.)  The unchecked `as CronosPaymentPayload` cast is a
no-op at runtime, so both decoders return the parsed JSON value. -/

/-- JSON image of a `CronosPaymentPayload`, with the fields in the insertion
order of the object literals in `payment/signing.ts` / `client-sdk/client.ts`. -/
def jsonOfPayload (p : CronosPaymentPayload) : Json :=
  .obj [("x402Version", .num p.x402Version),
        ("scheme", .str p.scheme),
        ("network", .str p.network),
        ("payload", .obj
          [("from", .str p.payload.from_),
           ("to", .str p.payload.to_),
           ("value", .str p.payload.value),
           ("validAfter", .num p.payload.validAfter),
           ("validBefore", .num p.payload.validBefore),
           ("nonce", .str p.payload.nonce),
           ("signature", .str p.payload.signature),
           ("asset", .str p.payload.asset)])]

/-- `encodePaymentHeader(payload)` applied to a payment payload:
`Buffer.from(JSON.stringify(payload)).toString('base64')`. -/
def encodePaymentHeader (p : CronosPaymentPayload) : String :=
  ⟨b64Encode (utf8Encode ⟨renderJson (jsonOfPayload p)⟩)⟩

/-- The string `Buffer.from(base64Header, 'base64').toString('utf-8')`. -/
def decodeHeaderString (base64Header : String) : String :=
  ⟨utf8Decode (b64Decode base64Header.data)⟩

/-- An error escaping a header decode: either the typed
`Error('Invalid payment header format')` thrown by `parsePaymentHeader`'s
`catch`, or the raw `SyntaxError` of `JSON.parse`, unhandled. -/
inductive HeaderError where
  | malformedHeader
  | jsonSyntaxError (input : String)
deriving DecidableEq, Repr

/-- `JSON.parse` with its thrown `SyntaxError` made explicit. -/
def jsonParseE (s : String) : Except HeaderError Json :=
  match jsonParse s with
  | some j => .ok j
  | none => .error (.jsonSyntaxError s)

/-- `parsePaymentHeader(base64Header)` from `core/utils.ts`: any failure is
caught and replaced by the typed error. -/
def parsePaymentHeader (base64Header : String) : Except HeaderError Json :=
  match jsonParseE (decodeHeaderString base64Header) with
  | .ok j => .ok j
  | .error _ => .error .malformedHeader

/-- `decodePaymentHeader(base64Header)` from `payment/signing.ts`: no
`try`/`catch` — the parse error, if any, escapes as thrown. -/
def decodePaymentHeader (base64Header : String) : Except HeaderError Json :=
  jsonParseE (decodeHeaderString base64Header)

/-- Property lookup on a parsed JSON object (JS member access). -/
def jsonGet (j : Json) (k : String) : Option Json :=
  match j with
  | .obj fields => (fields.find? (fun f => f.1 = k)).map (fun f => f.2)
  | _ => none

/-- Reading a parsed JSON value back as a `CronosPaymentPayload` (the field
accesses a consumer of the `as CronosPaymentPayload` cast performs). -/
def payloadOfJson (j : Json) : Option CronosPaymentPayload := do
  let .num x402Version := ← jsonGet j "x402Version" | none
  let .str scheme := ← jsonGet j "scheme" | none
  let .str network := ← jsonGet j "network" | none
  let some inner := jsonGet j "payload" | none
  let .str from_ := ← jsonGet inner "from" | none
  let .str to_ := ← jsonGet inner "to" | none
  let .str value := ← jsonGet inner "value" | none
  let .num validAfter := ← jsonGet inner "validAfter" | none
  let .num validBefore := ← jsonGet inner "validBefore" | none
  let .str nonce := ← jsonGet inner "nonce" | none
  let .str signature := ← jsonGet inner "signature" | none
  let .str asset := ← jsonGet inner "asset" | none
  return { x402Version, scheme, network,
           payload := { from_, to_, value, validAfter, validBefore,
                        nonce, signature, asset } }

/-! ## Validity of a payment payload

`validatePaymentPayload` is the code's own structural check
(`payment/signing.ts`); the address/hash shapes come from the validators in
`core/utils.ts` (`isValidAddress`, `isValidTxHash`).  `ValidPaymentPayload`
conjoins them with the field formats §3 of the design fixes (addresses,
decimal `value`, 32-byte hex `nonce`, hex `signature`, plain ASCII
scheme/network identifiers): exactly the payloads the signers emit. -/

/-- Hexadecimal digit character. -/
def isHexChar (c : Char) : Bool :=
  c.isDigit || ('a' ≤ c && c ≤ 'f') || ('A' ≤ c && c ≤ 'F')

/-- `isValidAddress` from `core/utils.ts`: `/^0x[a-fA-F0-9]{40}$/`. -/
def isValidAddress (address : String) : Bool :=
  match address.data with
  | '0' :: 'x' :: rest => rest.length = 40 && rest.all isHexChar
  | _ => false

/-- `isValidTxHash` from `core/utils.ts`: `/^0x[a-fA-F0-9]{64}$/`. -/
def isValidTxHash (hash : String) : Bool :=
  match hash.data with
  | '0' :: 'x' :: rest => rest.length = 64 && rest.all isHexChar
  | _ => false

/-- A `0x`-prefixed non-empty hex string (the shape of an ECDSA signature). -/
def isHexString (s : String) : Bool :=
  match s.data with
  | '0' :: 'x' :: rest => !rest.isEmpty && rest.all isHexChar
  | _ => false

/-- `validatePaymentPayload(payload)` from `payment/signing.ts`. -/
def validatePaymentPayload (p : CronosPaymentPayload) : Bool :=
  if p.x402Version = 0 || p.x402Version ≠ X402_VERSION then false
  else if p.scheme = "" || p.network = "" then false
  else if p.payload.signature = "" || p.payload.nonce = "" || p.payload.asset = "" then false
  else true

/-- A character that `JSON.stringify` passes through unescaped and UTF-8
encodes as itself (printable ASCII, no quote, no backslash). -/
def jsonSafeChar (c : Char) : Bool :=
  decide (c ≠ '"') && decide (c ≠ '\\') && decide (32 ≤ c.toNat) && decide (c.toNat < 128)

/-- All characters of a string are `jsonSafeChar`. -/
def jsonSafeStr (s : String) : Bool := s.data.all jsonSafeChar

/-- A valid `PaymentPayload`: passes the code's `validatePaymentPayload`,
its addresses/nonce/signature/value have the formats the protocol assigns
them, and its identifier strings are plain ASCII. -/
def ValidPaymentPayload (p : CronosPaymentPayload) : Bool :=
  validatePaymentPayload p &&
  isValidAddress p.payload.from_ && isValidAddress p.payload.to_ &&
  isValidAddress p.payload.asset &&
  (!p.payload.value.isEmpty && p.payload.value.data.all (·.isDigit)) &&
  isValidTxHash p.payload.nonce &&
  isHexString p.payload.signature &&
  jsonSafeStr p.scheme && jsonSafeStr p.network

/-! ## Derived notions used by the claim statements -/

/-- Sum of the `BigInt(amount)` values of stored budget transactions. -/
def txSum (ts : List BudgetTransaction) : Option Int :=
  ts.foldlM (fun acc t => do return acc + (← jsBigInt? t.amount)) (0 : Int)

/-- The facilitator verify call succeeded with `isValid = true`. -/
def verifyOk (o : FacOracle) : Prop :=
  ∃ v, o.verifyResult = .ok v ∧ v.isValid = true

/-- The facilitator settle call succeeded with `success = true`. -/
def settleOk (o : FacOracle) : Prop :=
  ∃ s, o.settleResult = .ok s ∧ s.success = true

/-- Real JS runtime exceptions carry non-empty messages; an oracle outcome
satisfying this never throws an `Error` whose `message` is `""`. -/
def nonEmptyThrown (r : Except JsThrown β) : Prop :=
  ∀ m, r = .error (.error m) → m ≠ ""

/-- Every character is ASCII. -/
def allAscii (l : List Char) : Prop := ∀ c ∈ l, c.toNat < 128

/-! ## Concrete fixtures used by witnesses -/

/-- A priced tool fixture. -/
def toolFixture : PricedTool :=
  { name := "get_ohlcv", description := "OHLCV data", price := "1000" }

/-- A handler configuration fixture. -/
def cfgFixture : PaymentHandler.Config :=
  { paymentAddress := "0xPay", network := .testnet }

/-- A well-formed settled facilitator response. -/
def settledDataFixture : SettleData :=
  { event := some "payment.settled", txHash := some "0xabc", from_ := some "0xF",
    to_ := some "0xT", value := some "1000", blockNumber := some 7,
    network := some "cronos-testnet", timestamp := some "t", error := none }

/-- A well-formed failed facilitator settle response. -/
def failedDataFixture : SettleData :=
  { event := some "payment.failed", txHash := none, from_ := none,
    to_ := none, value := none, blockNumber := none,
    network := none, timestamp := none, error := some "insufficient gas" }

/-- Oracle for a fully successful payment. -/
def oracleSuccess : FacOracle :=
  { verifyResult := .ok { isValid := true, invalidReason := none, payer := some "0xPayer" }
    settleResult := .ok (settleResponseOfData settledDataFixture)
    freshId := "id-1", now := 42 }

/-- Oracle for a verify-side protocol rejection (`invalid_signature`). -/
def oracleRejected : FacOracle :=
  { verifyResult := .ok { isValid := false, invalidReason := some "invalid_signature",
                          payer := none }
    settleResult := .ok (settleResponseOfData settledDataFixture)
    freshId := "id-2", now := 43 }

/-! # Theorems -/

/-! ## Budget bookkeeping (C5, C10) -/

/-- One `recordSpending` step preserves "`spent` is the sum of the stored
transaction amounts". -/
theorem txSum_recordSpending (m m' : BudgetManager) (t : BudgetManager.SpendInput)
    (now : Nat) (h : BudgetManager.recordSpending m t now = some m')
    (hinv : txSum m.transactions = some m.spent) :
    txSum m'.transactions = some m'.spent := by
  rcases hamt : jsBigInt? t.amount with _ | amt
  · simp [BudgetManager.recordSpending, hamt] at h
  · simp only [BudgetManager.recordSpending, hamt, Option.bind_eq_bind, Option.some_bind,
      Option.pure_def, Option.some.injEq] at h
    subst h
    unfold txSum at hinv ⊢
    rw [List.foldlM_append, hinv]
    simp [hamt]

/-- `recordAll` preserves the same invariant. -/
theorem txSum_recordAll (txs : List (BudgetManager.SpendInput × Nat)) :
    ∀ m m' : BudgetManager, BudgetManager.recordAll m txs = some m' →
      txSum m.transactions = some m.spent → txSum m'.transactions = some m'.spent := by
  induction txs with
  | nil =>
    intro m m' h hinv
    simp only [BudgetManager.recordAll, Option.some.injEq] at h
    exact h ▸ hinv
  | cons tx rest ih =>
    intro m m' h hinv
    rcases hstep : BudgetManager.recordSpending m tx.1 tx.2 with _ | m1
    · simp [BudgetManager.recordAll, hstep] at h
    · simp only [BudgetManager.recordAll, hstep, Option.bind_eq_bind, Option.some_bind] at h
      exact ih m1 m' h (txSum_recordSpending m m1 tx.1 tx.2 hstep hinv)

/-- C5: after any sequence of `recordSpending` calls on a freshly created
`BudgetManager`, `spent` equals the exact integer sum of the recorded
transaction amounts, and the `remaining` reported by `getRemaining` and
`getState` is computed as `total - spent` (it is not a stored field). -/
theorem C5_budget_spent_is_sum (totalBudget : String) (m0 : BudgetManager)
    (h0 : BudgetManager.create totalBudget = some m0)
    (txs : List (BudgetManager.SpendInput × Nat)) (m' : BudgetManager)
    (h : BudgetManager.recordAll m0 txs = some m') :
    txSum m'.transactions = some m'.getSpent ∧
    m'.getRemaining = m'.total - m'.getSpent ∧
    m'.getState.spent = toString m'.getSpent ∧
    m'.getState.remaining = toString (m'.total - m'.getSpent) ∧
    m'.getState.total = toString m'.total := by
  refine ⟨?_, rfl, rfl, rfl, rfl⟩
  have h0' : m0.transactions = [] ∧ m0.spent = 0 := by
    rcases htot : jsBigInt? totalBudget with _ | tot
    · simp [BudgetManager.create, htot] at h0
    · simp only [BudgetManager.create, htot, Option.bind_eq_bind, Option.some_bind,
        Option.pure_def, Option.some.injEq] at h0
      subst h0
      exact ⟨rfl, rfl⟩
  exact txSum_recordAll txs m0 m' h (by simp [h0'.1, h0'.2, txSum])

/-- Witness for C5 at a concrete two-spend run. -/
theorem C5_budget_spent_is_sum_witness :
    txSum (BudgetManager.mk 500 300
      [⟨"a", "u", "100", "0x1", 1⟩, ⟨"b", "u", "200", "0x2", 2⟩]).transactions
      = some (BudgetManager.mk 500 300
          [⟨"a", "u", "100", "0x1", 1⟩, ⟨"b", "u", "200", "0x2", 2⟩]).getSpent ∧
    (BudgetManager.mk 500 300
      [⟨"a", "u", "100", "0x1", 1⟩, ⟨"b", "u", "200", "0x2", 2⟩]).getRemaining
      = 500 - 300 := by
  have h := C5_budget_spent_is_sum "500" (BudgetManager.mk 500 0 [])
    (by decide)
    [(⟨"a", "u", "100", "0x1"⟩, 1), (⟨"b", "u", "200", "0x2"⟩, 2)]
    (BudgetManager.mk 500 300
      [⟨"a", "u", "100", "0x1", 1⟩, ⟨"b", "u", "200", "0x2", 2⟩])
    (by decide)
  exact ⟨h.1, h.2.1⟩

/-- C10: `recordSpending` enforces no ceiling — with a well-formed amount it
always succeeds, increases `spent` by exactly the amount (appending the
transaction), and when the new `spent` exceeds `total`, `getRemaining`
becomes negative. -/
theorem C10_recordSpending_no_ceiling (m : BudgetManager)
    (t : BudgetManager.SpendInput) (now : Nat) (amt : Int)
    (h : jsBigInt? t.amount = some amt) :
    ∃ m', BudgetManager.recordSpending m t now = some m' ∧
      m'.spent = m.spent + amt ∧
      m'.total = m.total ∧
      m'.transactions = m.transactions ++
        [⟨t.toolName, t.serverUrl, t.amount, t.txHash, now⟩] ∧
      (m.total < m.spent + amt → m'.getRemaining < 0) := by
  refine ⟨⟨m.total, m.spent + amt,
      m.transactions ++ [⟨t.toolName, t.serverUrl, t.amount, t.txHash, now⟩]⟩,
    ?_, rfl, rfl, rfl, ?_⟩
  · simp [BudgetManager.recordSpending, h]
  · intro hover
    simp only [BudgetManager.getRemaining]
    omega

/-- Witness for C10: overspending a budget of 500 by recording 1000 makes
the remaining budget negative. -/
theorem C10_recordSpending_no_ceiling_witness :
    ∃ m', BudgetManager.recordSpending (BudgetManager.mk 500 400 [])
        ⟨"a", "u", "1000", "0x1"⟩ 9 = some m' ∧
      m'.spent = 400 + 1000 ∧
      m'.total = 500 ∧
      m'.transactions = [] ++ [⟨"a", "u", "1000", "0x1", 9⟩] ∧
      ((500 : Int) < 400 + 1000 → m'.getRemaining < 0) := by
  exact C10_recordSpending_no_ceiling (BudgetManager.mk 500 400 [])
    ⟨"a", "u", "1000", "0x1"⟩ 9 1000 (by decide)

/-! ## The 402 challenge (C7) -/

/-- C7: for a tool priced `"1000"` with no payment header, the tool route
returns status 402 whose body is
`{error: "Payment Required", paymentRequirements, accepts: [paymentRequirements]}`,
with `maxAmountRequired = "1000"`, `scheme = "exact"`,
`mimeType = "application/json"` and `maxTimeoutSeconds = 300`. -/
theorem C7_challenge_402 {ω : Type} (cfg : PaymentHandler.Config) (tool : PricedTool)
    (hp : tool.price = "1000") (o : FacOracle) (handlerResult : Except JsThrown ω)
    (st : List (String × PaymentRecord)) :
    toolRoute cfg tool none o handlerResult st =
      some (st, [],
        { status := 402
          body := .challenge
            { error := "Payment Required"
              paymentRequirements :=
                PaymentHandler.createPaymentRequirements cfg tool ("tool://" ++ tool.name)
              accepts :=
                [PaymentHandler.createPaymentRequirements cfg tool ("tool://" ++ tool.name)] } }) ∧
    (PaymentHandler.createPaymentRequirements cfg tool
      ("tool://" ++ tool.name)).maxAmountRequired = "1000" ∧
    (PaymentHandler.createPaymentRequirements cfg tool ("tool://" ++ tool.name)).scheme
      = "exact" ∧
    (PaymentHandler.createPaymentRequirements cfg tool ("tool://" ++ tool.name)).mimeType
      = "application/json" ∧
    (PaymentHandler.createPaymentRequirements cfg tool
      ("tool://" ++ tool.name)).maxTimeoutSeconds = 300 := by
  have hbig : jsBigInt? tool.price = some 1000 := by rw [hp]; decide
  refine ⟨?_, by simp [PaymentHandler.createPaymentRequirements, hp], rfl, rfl, rfl⟩
  simp [toolRoute, X402Middleware.process, hbig, jsTruthyStr,
    PaymentHandler.create402Response]

/-- Witness for C7 at the concrete fixtures. -/
theorem C7_challenge_402_witness :
    toolRoute cfgFixture toolFixture none oracleSuccess (.ok (0 : Nat)) [] =
      some ([], [],
        { status := 402
          body := .challenge
            { error := "Payment Required"
              paymentRequirements :=
                PaymentHandler.createPaymentRequirements cfgFixture toolFixture
                  ("tool://" ++ toolFixture.name)
              accepts :=
                [PaymentHandler.createPaymentRequirements cfgFixture toolFixture
                  ("tool://" ++ toolFixture.name)] } }) ∧
    (PaymentHandler.createPaymentRequirements cfgFixture toolFixture
      ("tool://" ++ toolFixture.name)).maxTimeoutSeconds = 300 := by
  have h := C7_challenge_402 cfgFixture toolFixture rfl oracleSuccess (.ok (0 : Nat)) []
  exact ⟨h.1, h.2.2.2.2⟩

/-! ## `validBefore` of the signed payload (C9) -/

/-- C9 as stated fails on `createPaymentHeader` in `payment/signing.ts`: for
requirements with `maxTimeoutSeconds = 60` and signing time 0, the payload's
`validBefore` is the fixed `0 + 300`, not `0 + 60`. -/
theorem C9_counterexample :
    (Signing.createPaymentPayload "0xW"
      { scheme := "exact", network := "cronos-testnet", maxAmountRequired := "1000",
        resource := "r", description := "", mimeType := "application/json",
        payTo := "0xPay", maxTimeoutSeconds := 60, asset := "0xAsset" }
      "0xNonce" "0xSig" 0).payload.validBefore = 300 ∧
    (0 : Nat) / 1000 + 60 = 60 ∧ (300 : Nat) ≠ 60 := by
  exact ⟨rfl, rfl, by decide⟩

/-- C9 amended: the client-SDK signer (`MCPClient.createPaymentHeader`) sets
`validBefore = ⌊now/1000⌋ + requirements.maxTimeoutSeconds` (via
`calculateValidBefore`), while the payment-package signer
(`createPaymentHeader` in `payment/signing.ts`) ignores the requirements and
always uses the fixed `TIMEOUTS.PAYMENT_VALIDITY = 300` window — the two
agree exactly when `maxTimeoutSeconds = 300`, the value every server-issued
requirement carries. -/
theorem C9_validBefore (walletAddress : String) (req : PaymentRequirements)
    (nonce sig : String) (nowMs : Nat) :
    (MCPClient.createPaymentPayload walletAddress req nonce sig nowMs).payload.validBefore
      = nowMs / 1000 + req.maxTimeoutSeconds ∧
    calculateValidBefore req.maxTimeoutSeconds nowMs = nowMs / 1000 + req.maxTimeoutSeconds ∧
    (Signing.createPaymentPayload walletAddress req nonce sig nowMs).payload.validBefore
      = nowMs / 1000 + TIMEOUTS__PAYMENT_VALIDITY ∧
    (req.maxTimeoutSeconds = 300 →
      (Signing.createPaymentPayload walletAddress req nonce sig nowMs).payload.validBefore
        = nowMs / 1000 + req.maxTimeoutSeconds) := by
  refine ⟨rfl, rfl, rfl, ?_⟩
  intro h
  simp [Signing.createPaymentPayload, TIMEOUTS__PAYMENT_VALIDITY, h]

/-- Witness for C9's amended statement at a 300-second requirement. -/
theorem C9_validBefore_witness :
    (MCPClient.createPaymentPayload "0xW"
      (PaymentHandler.createPaymentRequirements cfgFixture toolFixture "tool://get_ohlcv")
      "0xN" "0xS" 5000).payload.validBefore = 5000 / 1000 + 300 ∧
    (Signing.createPaymentPayload "0xW"
      (PaymentHandler.createPaymentRequirements cfgFixture toolFixture "tool://get_ohlcv")
      "0xN" "0xS" 5000).payload.validBefore = 5000 / 1000 + 300 := by
  have h := C9_validBefore "0xW"
    (PaymentHandler.createPaymentRequirements cfgFixture toolFixture "tool://get_ohlcv")
    "0xN" "0xS" 5000
  exact ⟨h.1, h.2.2.2 rfl⟩

/-! ## Retry-loop behaviour (C3, C8) -/

/-- A retry loop whose first attempt succeeds stops after exactly that one
attempt, with no sleeps beyond those already accumulated. -/
theorem retryLoop_first_ok {ε α : Type} (f : Nat → Except ε α) (retries : Nat)
    (delayFn : Nat → Nat) (rem i : Nat) (lastErr : Option ε) (sleeps : List Nat)
    (a : α) (hrem : 0 < rem) (hok : f i = .ok a) :
    retryLoop f retries delayFn rem i lastErr sleeps = ⟨.ok a, i + 1, sleeps⟩ := by
  cases rem with
  | zero => omega
  | succ k => simp [retryLoop, hok]

/-- One failing step of the retry loop. -/
theorem retryLoop_fail_step {ε α : Type} (f : Nat → Except ε α) (retries : Nat)
    (delayFn : Nat → Nat) (k i : Nat) (lastErr : Option ε) (sleeps : List Nat)
    (e : ε) (he : f i = .error e) :
    retryLoop f retries delayFn (k + 1) i lastErr sleeps =
      if i < retries - 1 then
        retryLoop f retries delayFn k (i + 1) (some e) (sleeps ++ [delayFn i])
      else
        retryLoop f retries delayFn k (i + 1) (some e) sleeps := by
  conv_lhs => rw [retryLoop, he]

/-- A retry loop all of whose attempts fail performs them all, sleeping
`delayFn i` after every attempt but the last, and rethrows the last error. -/
theorem retryLoop_all_fail {ε α : Type} (f : Nat → Except ε α) (retries : Nat)
    (delayFn : Nat → Nat) :
    ∀ rem i lastErr sleeps, rem + i = retries → 0 < rem →
      (∀ j, i ≤ j → j < retries → ∃ e, f j = .error e) →
      ∃ e, f (retries - 1) = .error e ∧
        retryLoop f retries delayFn rem i lastErr sleeps =
          ⟨.error (some e), retries, sleeps ++ (List.range' i (rem - 1)).map delayFn⟩ := by
  intro rem
  induction rem with
  | zero => omega
  | succ k ih =>
    intro i lastErr sleeps htot hpos hfail
    obtain ⟨e, he⟩ := hfail i (Nat.le_refl i) (by omega)
    cases k with
    | zero =>
      have hi : i = retries - 1 := by omega
      have hi1 : i + 1 = retries := by omega
      refine ⟨e, hi ▸ he, ?_⟩
      rw [retryLoop_fail_step f retries delayFn 0 i lastErr sleeps e he,
        if_neg (by omega)]
      simp [retryLoop, hi1]
    | succ k' =>
      have hlt : i < retries - 1 := by omega
      obtain ⟨e', he', hrest⟩ := ih (i + 1) (some e) (sleeps ++ [delayFn i])
        (by omega) (by omega) (fun j hj hj' => hfail j (by omega) hj')
      refine ⟨e', he', ?_⟩
      rw [retryLoop_fail_step f retries delayFn (k' + 1) i lastErr sleeps e he,
        if_pos hlt, hrest]
      simp [List.range'_succ, List.append_assoc]

/-- A transport-level verify failure is a thrown error for the retry loop. -/
theorem verifyAttempt_transport_error (a : VerifyAttempt)
    (h : a.isTransportFail = true) : ∃ e, verifyAttemptResult a = .error e := by
  cases a <;> simp_all [VerifyAttempt.isTransportFail, verifyAttemptResult]

/-- A transport-level settle failure is a thrown error for the retry loop. -/
theorem settleAttempt_transport_error (a : SettleAttempt)
    (h : a.isTransportFail = true) : ∃ e, settleAttemptResult a = .error e := by
  cases a <;> simp_all [SettleAttempt.isTransportFail, settleAttemptResult]

/-- C3: with `N` configured retries, a permanently failing transport makes
`verify`/`settle` attempt exactly `N` times and then rethrow the final
transport error (the terminal facilitator-unavailable outcome), while a
first-attempt well-formed protocol rejection (`isValid = false`, resp.
`event = "payment.failed"`) is returned after exactly one attempt, with no
retry. -/
theorem C3_retry_bounds (va : Nat → VerifyAttempt) (sa : Nat → SettleAttempt)
    (N : Nat) (r : VerifyResponse) (d : SettleData) (hN : 0 < N) :
    ((∀ i, i < N → (va i).isTransportFail = true) →
      (FacilitatorClient.verify va N).attempts = N ∧
      ∃ e, verifyAttemptResult (va (N - 1)) = .error e ∧
        (FacilitatorClient.verify va N).outcome = .error (some e)) ∧
    ((∀ i, i < N → (sa i).isTransportFail = true) →
      (FacilitatorClient.settle sa N).attempts = N ∧
      ∃ e, settleAttemptResult (sa (N - 1)) = .error e ∧
        (FacilitatorClient.settle sa N).outcome = .error (some e)) ∧
    (va 0 = .wellFormed r → r.isValid = false →
      (FacilitatorClient.verify va N).attempts = 1 ∧
      (FacilitatorClient.verify va N).outcome = .ok r) ∧
    (sa 0 = .wellFormed d → d.event = some "payment.failed" →
      (FacilitatorClient.settle sa N).attempts = 1 ∧
      (FacilitatorClient.settle sa N).outcome = .ok (settleResponseOfData d) ∧
      (settleResponseOfData d).success = false) := by
  refine ⟨?_, ?_, ?_, ?_⟩
  · intro hfail
    obtain ⟨e, he, hrun⟩ := retryLoop_all_fail
      (fun i => verifyAttemptResult (va i)) N (fun i => 1000 * (i + 1)) N 0 none []
      (by omega) hN
      (fun j _ hj => verifyAttempt_transport_error (va j) (hfail j hj))
    refine ⟨?_, e, he, ?_⟩ <;>
      simp [FacilitatorClient.verify, Facilitator.retry, hrun]
  · intro hfail
    obtain ⟨e, he, hrun⟩ := retryLoop_all_fail
      (fun i => settleAttemptResult (sa i)) N (fun i => 1000 * (i + 1)) N 0 none []
      (by omega) hN
      (fun j _ hj => settleAttempt_transport_error (sa j) (hfail j hj))
    refine ⟨?_, e, he, ?_⟩ <;>
      simp [FacilitatorClient.settle, Facilitator.retry, hrun]
  · intro h0 _
    have hok : verifyAttemptResult (va 0) = .ok r := by simp [h0, verifyAttemptResult]
    have := retryLoop_first_ok (fun i => verifyAttemptResult (va i)) N
      (fun i => 1000 * (i + 1)) N 0 none [] r hN hok
    constructor <;> simp [FacilitatorClient.verify, Facilitator.retry, this]
  · intro h0 hev
    have hok : settleAttemptResult (sa 0) = .ok (settleResponseOfData d) := by
      simp [h0, settleAttemptResult]
    have := retryLoop_first_ok (fun i => settleAttemptResult (sa i)) N
      (fun i => 1000 * (i + 1)) N 0 none [] (settleResponseOfData d) hN hok
    refine ⟨?_, ?_, ?_⟩
    · simp [FacilitatorClient.settle, Facilitator.retry, this]
    · simp [FacilitatorClient.settle, Facilitator.retry, this]
    · simp [settleResponseOfData, hev]

/-- Witness for C3: two permanently failing verify attempts are both made;
a first-attempt `payment.failed` settle rejection stops after one attempt. -/
theorem C3_retry_bounds_witness :
    (FacilitatorClient.verify (fun i => .netFail (toString i)) 2).attempts = 2 ∧
    (FacilitatorClient.settle (fun _ => .wellFormed failedDataFixture) 2).attempts = 1 ∧
    (settleResponseOfData failedDataFixture).success = false := by
  have h := C3_retry_bounds (fun i => .netFail (toString i))
    (fun _ => .wellFormed failedDataFixture)
    2 ⟨true, none, none⟩ failedDataFixture (by decide)
  obtain ⟨h1, _, _, h4⟩ := h
  obtain ⟨ha, _⟩ := h1 (by intro i _; rfl)
  obtain ⟨hb, _, hc⟩ := h4 rfl rfl
  exact ⟨ha, hb, hc⟩

/-! ## Backoff shape (C8) -/

/-- C8 as stated fails: with 4 configured retries (≥ 3) and base delay 1000,
the facilitator retry helper sleeps 1000, 2000, 3000 — linear growth, which
no fixed multiplier `base * mult ^ i` matches. -/
theorem C8_counterexample :
    (Facilitator.retry (fun _ => (.error () : Except Unit Unit)) 4 1000).sleeps
      = [1000, 2000, 3000] ∧
    ¬ ∃ base mult : Nat,
        [1000, 2000, 3000] = [base * mult ^ 0, base * mult ^ 1, base * mult ^ 2] := by
  refine ⟨rfl, ?_⟩
  rintro ⟨b, m, hlist⟩
  simp only [List.cons.injEq, and_true] at hlist
  obtain ⟨h0, h1, h2⟩ := hlist
  have hb : b = 1000 := by simpa using h0.symm
  subst hb
  have hm : m = 2 := by rw [pow_one] at h1; omega
  subst hm
  norm_num at h2

/-- C8 amended: on a permanently failing transport the facilitator client's
retry helper (`payment/facilitator.ts`) waits `delay * (i + 1)` after
attempt `i` — linearly growing delays — while the generic `retry` helper of
`core/utils.ts` (not used by the facilitator client) waits
`baseDelay * 2 ^ i`, exponentially. -/
theorem C8_backoff_shape {ε α : Type} (f : Nat → Except ε α) (N delay : Nat)
    (hfail : ∀ i, i < N → ∃ e, f i = .error e) (hN : 0 < N) :
    (Facilitator.retry f N delay).sleeps
      = (List.range (N - 1)).map (fun i => delay * (i + 1)) ∧
    (CoreUtils.retry f N delay).sleeps
      = (List.range (N - 1)).map (fun i => delay * 2 ^ i) := by
  obtain ⟨e, -, hrun⟩ := retryLoop_all_fail f N (fun i => delay * (i + 1)) N 0 none []
    (by omega) hN (fun j _ hj => hfail j hj)
  obtain ⟨e', -, hrun'⟩ := retryLoop_all_fail f N (fun i => delay * 2 ^ i) N 0 none []
    (by omega) hN (fun j _ hj => hfail j hj)
  constructor
  · simp [Facilitator.retry, hrun, List.range_eq_range']
  · simp [CoreUtils.retry, hrun', List.range_eq_range']

/-- Witness for C8's amended statement: three failing attempts sleep
1000 then 2000 (facilitator helper) and 1000 then 2000 (core helper). -/
theorem C8_backoff_shape_witness :
    (Facilitator.retry (fun _ => (.error () : Except Unit Unit)) 3 1000).sleeps
      = (List.range 2).map (fun i => 1000 * (i + 1)) ∧
    (CoreUtils.retry (fun _ => (.error () : Except Unit Unit)) 3 1000).sleeps
      = (List.range 2).map (fun i => 1000 * 2 ^ i) := by
  exact C8_backoff_shape (fun _ => (.error () : Except Unit Unit)) 3 1000
    (fun i _ => ⟨(), rfl⟩) (by decide)


/-! ## Pay-then-execute ordering (C1, C2) -/

/-- A string with a non-empty prefix is non-empty. -/
theorem string_append_ne_empty (pre s : String) (h : pre.data ≠ []) :
    pre ++ s ≠ "" := by
  intro hc
  apply h
  have hdata := congrArg String.data hc
  rw [String.data_append] at hdata
  exact (List.append_eq_nil.mp hdata).1

/-- Truthiness of a present string. -/
theorem jsTruthyStr_some (s : String) : jsTruthyStr (some s) = true ↔ s ≠ "" := by
  simp [jsTruthyStr]

/-- The middleware challenges when the tool is priced and no (truthy)
payment header is attached. -/
theorem process_eq_challenge (cfg : PaymentHandler.Config) (tool : PricedTool)
    (n : Int) (hprice : jsBigInt? tool.price = some n) (hn : ¬ n = 0)
    (header : Option String) (hh : jsTruthyStr header = false) (o : FacOracle)
    (st : List (String × PaymentRecord)) :
    X402Middleware.process cfg tool header o st =
      some (st, [],
        ⟨false, some (PaymentHandler.create402Response cfg tool ("tool://" ++ tool.name)),
         none, none⟩) := by
  simp [X402Middleware.process, hprice, hn, hh]

/-- The middleware reports the thrown error when the verify call throws. -/
theorem process_eq_verifyThrew (cfg : PaymentHandler.Config) (tool : PricedTool)
    (n : Int) (hprice : jsBigInt? tool.price = some n) (hn : ¬ n = 0)
    (header : Option String) (hh : jsTruthyStr header = true) (o : FacOracle)
    (e : JsThrown) (hov : o.verifyResult = .error e)
    (st : List (String × PaymentRecord)) :
    X402Middleware.process cfg tool header o st =
      some (st, [.verifyCall],
        ⟨false, none, none, some (thrownMessage e "Payment failed")⟩) := by
  cases e <;>
    simp [X402Middleware.process, PaymentHandler.processPayment, hprice, hn, hh, hov]

/-- The middleware reports `Payment invalid: <reason>` when verify returns
`isValid = false`. -/
theorem process_eq_verifyRejected (cfg : PaymentHandler.Config) (tool : PricedTool)
    (n : Int) (hprice : jsBigInt? tool.price = some n) (hn : ¬ n = 0)
    (header : Option String) (hh : jsTruthyStr header = true) (o : FacOracle)
    (v : VerifyResponse) (hov : o.verifyResult = .ok v) (hvalid : v.isValid = false)
    (st : List (String × PaymentRecord)) :
    X402Middleware.process cfg tool header o st =
      some (st, [.verifyCall],
        ⟨false, none, none,
         some ("Payment invalid: " ++ jsOrStr v.invalidReason "unknown")⟩) := by
  simp [X402Middleware.process, PaymentHandler.processPayment, thrownMessage, hprice,
    hn, hh, hov, hvalid]

/-- The middleware reports the thrown error when the settle call throws. -/
theorem process_eq_settleThrew (cfg : PaymentHandler.Config) (tool : PricedTool)
    (n : Int) (hprice : jsBigInt? tool.price = some n) (hn : ¬ n = 0)
    (header : Option String) (hh : jsTruthyStr header = true) (o : FacOracle)
    (v : VerifyResponse) (hov : o.verifyResult = .ok v) (hvalid : v.isValid = true)
    (e : JsThrown) (hos : o.settleResult = .error e)
    (st : List (String × PaymentRecord)) :
    X402Middleware.process cfg tool header o st =
      some (st, [.verifyCall, .settleCall],
        ⟨false, none, none, some (thrownMessage e "Payment failed")⟩) := by
  cases e <;>
    simp [X402Middleware.process, PaymentHandler.processPayment, hprice, hn, hh, hov,
      hvalid, hos]

/-- The middleware reports `Settlement failed: <reason>` when settle returns
`success = false`. -/
theorem process_eq_settleFailed (cfg : PaymentHandler.Config) (tool : PricedTool)
    (n : Int) (hprice : jsBigInt? tool.price = some n) (hn : ¬ n = 0)
    (header : Option String) (hh : jsTruthyStr header = true) (o : FacOracle)
    (v : VerifyResponse) (hov : o.verifyResult = .ok v) (hvalid : v.isValid = true)
    (s : SettleResponse) (hos : o.settleResult = .ok s) (hsucc : s.success = false)
    (st : List (String × PaymentRecord)) :
    X402Middleware.process cfg tool header o st =
      some (st, [.verifyCall, .settleCall],
        ⟨false, none, none,
         some ("Settlement failed: " ++ jsOrStr s.errorReason "unknown")⟩) := by
  simp [X402Middleware.process, PaymentHandler.processPayment, thrownMessage, hprice,
    hn, hh, hov, hvalid, hos, hsucc]

/-- The middleware proceeds with the freshly written ledger record when
verify and settle both succeed. -/
theorem process_eq_success (cfg : PaymentHandler.Config) (tool : PricedTool)
    (n : Int) (hprice : jsBigInt? tool.price = some n) (hn : ¬ n = 0)
    (header : Option String) (hh : jsTruthyStr header = true) (o : FacOracle)
    (v : VerifyResponse) (hov : o.verifyResult = .ok v) (hvalid : v.isValid = true)
    (s : SettleResponse) (hos : o.settleResult = .ok s) (hsucc : s.success = true)
    (st : List (String × PaymentRecord)) :
    X402Middleware.process cfg tool header o st =
      some (mapSet st o.freshId
              ⟨o.freshId, tool.name, tool.price, jsOrStr v.payer "unknown",
               jsOrStr s.transaction "", o.now, "settled"⟩,
        [.verifyCall, .settleCall, .ledgerWrite],
        ⟨true, none,
         some ⟨o.freshId, tool.name, tool.price, jsOrStr v.payer "unknown",
               jsOrStr s.transaction "", o.now, "settled"⟩, none⟩) := by
  simp [X402Middleware.process, PaymentHandler.processPayment, thrownMessage, hprice,
    hn, hh, hov, hvalid, hos, hsucc]

/-- The route relays a challenge from the middleware unchanged. -/
theorem toolRoute_challenge {ω : Type} (cfg : PaymentHandler.Config) (tool : PricedTool)
    (header : Option String) (o : FacOracle) (handlerResult : Except JsThrown ω)
    (st st' : List (String × PaymentRecord)) (ev : List Event)
    (pr : PaymentHandler.Response402) (payment : Option PaymentRecord)
    (error : Option String)
    (hp : X402Middleware.process cfg tool header o st =
      some (st', ev, ⟨false, some pr, payment, error⟩)) :
    toolRoute cfg tool header o handlerResult st =
      some (st', ev, ⟨pr.status, .challenge pr.body⟩) := by
  simp [toolRoute, hp]

/-- The route turns a middleware payment error into a 402 response carrying
the error text. -/
theorem toolRoute_paymentError {ω : Type} (cfg : PaymentHandler.Config)
    (tool : PricedTool) (header : Option String) (o : FacOracle)
    (handlerResult : Except JsThrown ω)
    (st st' : List (String × PaymentRecord)) (ev : List Event)
    (proceed : Bool) (payment : Option PaymentRecord) (msg : String) (hne : msg ≠ "")
    (hp : X402Middleware.process cfg tool header o st =
      some (st', ev, ⟨proceed, none, payment, some msg⟩)) :
    toolRoute cfg tool header o handlerResult st =
      some (st', ev, ⟨402, .paymentInvalid ("Payment invalid: " ++ msg)⟩) := by
  simp [toolRoute, hp, jsTruthyStr, hne]

/-- When the middleware neither challenges nor errors, the route executes
the tool handler (appending the execution event), returning 200 on a
handler value and 500 on a handler throw. -/
theorem toolRoute_exec {ω : Type} (cfg : PaymentHandler.Config)
    (tool : PricedTool) (header : Option String) (o : FacOracle)
    (handlerResult : Except JsThrown ω)
    (st st' : List (String × PaymentRecord)) (ev : List Event)
    (proceed : Bool) (payment : Option PaymentRecord)
    (hp : X402Middleware.process cfg tool header o st =
      some (st', ev, ⟨proceed, none, payment, none⟩)) :
    toolRoute cfg tool header o handlerResult st =
      some (st', ev ++ [.handlerExec],
        match handlerResult with
        | .ok w => ⟨200, .success w payment⟩
        | .error e => ⟨500, .execFailed (thrownMessage e "Tool execution failed")⟩) := by
  cases handlerResult <;> simp [toolRoute, hp, jsTruthyStr]

/-- C1: for a priced tool (`price > 0`), the tool handler runs if and only
if the facilitator verify succeeded with `isValid = true` and the
facilitator settle succeeded; with no payment header attached the challenge
is issued with no protocol events at all; and on the success path the
handler runs exactly once, strictly after the settle call and the ledger
write.  (`hv`/`hs` record that real runtime exceptions carry non-empty
messages.) -/
theorem C1_exec_iff_settled {ω : Type} (cfg : PaymentHandler.Config) (tool : PricedTool)
    (n : Int) (hprice : jsBigInt? tool.price = some n) (hpos : 0 < n)
    (header : Option String) (o : FacOracle) (handlerResult : Except JsThrown ω)
    (st : List (String × PaymentRecord))
    (hv : nonEmptyThrown o.verifyResult) (hs : nonEmptyThrown o.settleResult) :
    ∃ st' ev resp, toolRoute cfg tool header o handlerResult st = some (st', ev, resp) ∧
      (jsTruthyStr header = false → ev = []) ∧
      (Event.handlerExec ∈ ev ↔ (jsTruthyStr header = true ∧ verifyOk o ∧ settleOk o)) ∧
      ev.count Event.handlerExec ≤ 1 ∧
      ((jsTruthyStr header = true ∧ verifyOk o ∧ settleOk o) →
        ev = [.verifyCall, .settleCall, .ledgerWrite, .handlerExec]) := by
  have hn : ¬ n = 0 := by omega
  cases hh : jsTruthyStr header with
  | false =>
    exact ⟨st, [], _,
      toolRoute_challenge cfg tool header o handlerResult st st [] _ none none
        (process_eq_challenge cfg tool n hprice hn header hh o st),
      fun _ => rfl, by simp, by decide, by simp⟩
  | true =>
    rcases hov : o.verifyResult with e | v
    · have hmsgNe : thrownMessage e "Payment failed" ≠ "" := by
        cases e with
        | error m => exact hv m hov
        | nonError => decide
      have hroute := toolRoute_paymentError cfg tool header o handlerResult st st
        [.verifyCall] false none (thrownMessage e "Payment failed") hmsgNe
        (process_eq_verifyThrew cfg tool n hprice hn header hh o e hov st)
      refine ⟨st, [.verifyCall], _, hroute, by simp, ?_, by decide, ?_⟩
      · refine iff_of_false (by decide) (fun hc => ?_)
        obtain ⟨-, ⟨v', hv', -⟩, -⟩ := hc
        rw [hov] at hv'
        exact Except.noConfusion hv'
      · intro hc
        obtain ⟨-, ⟨v', hv', -⟩, -⟩ := hc
        rw [hov] at hv'
        exact Except.noConfusion hv'
    · cases hvalid : v.isValid with
      | false =>
        have hroute := toolRoute_paymentError cfg tool header o handlerResult st st
          [.verifyCall] false none _
          (string_append_ne_empty "Payment invalid: " _ (by decide))
          (process_eq_verifyRejected cfg tool n hprice hn header hh o v hov hvalid st)
        refine ⟨st, [.verifyCall], _, hroute, by simp, ?_, by decide, ?_⟩
        · refine iff_of_false (by decide) (fun hc => ?_)
          obtain ⟨-, ⟨v', hv', hval'⟩, -⟩ := hc
          rw [hov] at hv'
          cases hv'
          rw [hvalid] at hval'
          exact Bool.noConfusion hval'
        · intro hc
          obtain ⟨-, ⟨v', hv', hval'⟩, -⟩ := hc
          rw [hov] at hv'
          cases hv'
          rw [hvalid] at hval'
          exact Bool.noConfusion hval'
      | true =>
        rcases hos : o.settleResult with e | s
        · have hmsgNe : thrownMessage e "Payment failed" ≠ "" := by
            cases e with
            | error m => exact hs m hos
            | nonError => decide
          have hroute := toolRoute_paymentError cfg tool header o handlerResult st st
            [.verifyCall, .settleCall] false none (thrownMessage e "Payment failed") hmsgNe
            (process_eq_settleThrew cfg tool n hprice hn header hh o v hov hvalid e hos st)
          refine ⟨st, [.verifyCall, .settleCall], _, hroute, by simp, ?_, by decide, ?_⟩
          · refine iff_of_false (by decide) (fun hc => ?_)
            obtain ⟨-, -, ⟨s', hs', -⟩⟩ := hc
            rw [hos] at hs'
            exact Except.noConfusion hs'
          · intro hc
            obtain ⟨-, -, ⟨s', hs', -⟩⟩ := hc
            rw [hos] at hs'
            exact Except.noConfusion hs'
        · cases hsucc : s.success with
          | false =>
            have hroute := toolRoute_paymentError cfg tool header o handlerResult st st
              [.verifyCall, .settleCall] false none _
              (string_append_ne_empty "Settlement failed: " _ (by decide))
              (process_eq_settleFailed cfg tool n hprice hn header hh o v hov hvalid
                s hos hsucc st)
            refine ⟨st, [.verifyCall, .settleCall], _, hroute, by simp, ?_,
              by decide, ?_⟩
            · refine iff_of_false (by decide) (fun hc => ?_)
              obtain ⟨-, -, ⟨s', hs', hsucc'⟩⟩ := hc
              rw [hos] at hs'
              cases hs'
              rw [hsucc] at hsucc'
              exact Bool.noConfusion hsucc'
            · intro hc
              obtain ⟨-, -, ⟨s', hs', hsucc'⟩⟩ := hc
              rw [hos] at hs'
              cases hs'
              rw [hsucc] at hsucc'
              exact Bool.noConfusion hsucc'
          | true =>
            have hroute := toolRoute_exec cfg tool header o handlerResult st _
              [.verifyCall, .settleCall, .ledgerWrite] true
              (some ⟨o.freshId, tool.name, tool.price, jsOrStr v.payer "unknown",
                     jsOrStr s.transaction "", o.now, "settled"⟩)
              (process_eq_success cfg tool n hprice hn header hh o v hov hvalid
                s hos hsucc st)
            refine ⟨_, [.verifyCall, .settleCall, .ledgerWrite, .handlerExec], _,
              hroute, by simp, ?_, by decide, fun _ => rfl⟩
            exact iff_of_true (by decide) ⟨rfl, ⟨v, hov, hvalid⟩, ⟨s, hos, hsucc⟩⟩

/-- Witness for C1: on the fixture success path the handler execution event
occurs (and the success trace is exactly verify, settle, ledger, execute). -/
theorem C1_exec_iff_settled_witness :
    verifyOk oracleSuccess ∧ settleOk oracleSuccess ∧
    Event.handlerExec ∈
      [Event.verifyCall, Event.settleCall, Event.ledgerWrite, Event.handlerExec] := by
  obtain ⟨st', ev, resp, heq, -, hiff, -, hlist⟩ :=
    C1_exec_iff_settled cfgFixture toolFixture 1000 (by decide) (by decide)
      (some "hdr") oracleSuccess (Except.ok (37 : Nat)) []
      (by intro m hm; simp [oracleSuccess] at hm)
      (by intro m hm; simp [oracleSuccess] at hm)
  have hvo : verifyOk oracleSuccess := ⟨_, rfl, rfl⟩
  have hso : settleOk oracleSuccess := ⟨_, rfl, rfl⟩
  have hev : ev = [Event.verifyCall, Event.settleCall, Event.ledgerWrite,
      Event.handlerExec] := hlist ⟨rfl, hvo, hso⟩
  exact ⟨hvo, hso, hev ▸ hiff.mpr ⟨rfl, hvo, hso⟩⟩

/-- C2: when verify rejects with an `invalidReason`, the middleware fails
with an error carrying exactly that reason, the settle call and the handler
never happen, the response is a 402 whose body embeds the reason, and the
ledger (hence `getTotalRevenue`) is unchanged. -/
theorem C2_verify_rejected_propagates {ω : Type} (cfg : PaymentHandler.Config)
    (tool : PricedTool) (n : Int) (hprice : jsBigInt? tool.price = some n)
    (hpos : 0 < n) (header : Option String) (hh : jsTruthyStr header = true)
    (o : FacOracle) (reason : String) (payer : Option String)
    (hr : o.verifyResult = .ok ⟨false, some reason, payer⟩) (hne : reason ≠ "")
    (handlerResult : Except JsThrown ω) (st : List (String × PaymentRecord)) :
    X402Middleware.process cfg tool header o st =
      some (st, [Event.verifyCall],
        ⟨false, none, none, some ("Payment invalid: " ++ reason)⟩) ∧
    toolRoute cfg tool header o handlerResult st =
      some (st, [Event.verifyCall],
        ⟨402, .paymentInvalid ("Payment invalid: " ++ ("Payment invalid: " ++ reason))⟩) ∧
    Event.settleCall ∉ [Event.verifyCall] ∧
    Event.handlerExec ∉ [Event.verifyCall] ∧
    (toolRoute cfg tool header o handlerResult st).map (fun x => x.1) = some st ∧
    (toolRoute cfg tool header o handlerResult st).map
        (fun x => PaymentHandler.getTotalRevenue x.1) =
      some (PaymentHandler.getTotalRevenue st) := by
  have hmid := process_eq_verifyRejected cfg tool n hprice (by omega) header hh o
    ⟨false, some reason, payer⟩ hr rfl st
  have hjsor : jsOrStr (some reason) "unknown" = reason := by simp [jsOrStr, hne]
  rw [hjsor] at hmid
  have hroute := toolRoute_paymentError cfg tool header o handlerResult st st
    [Event.verifyCall] false none ("Payment invalid: " ++ reason)
    (string_append_ne_empty "Payment invalid: " reason (by decide)) hmid
  refine ⟨hmid, hroute, by decide, by decide, ?_, ?_⟩ <;> rw [hroute] <;> rfl

/-- Witness for C2 at the `invalid_signature` fixture rejection. -/
theorem C2_verify_rejected_propagates_witness :
    X402Middleware.process cfgFixture toolFixture (some "hdr") oracleRejected [] =
      some ([], [Event.verifyCall],
        ⟨false, none, none, some ("Payment invalid: " ++ "invalid_signature")⟩) ∧
    toolRoute cfgFixture toolFixture (some "hdr") oracleRejected
        (Except.ok (37 : Nat)) [] =
      some ([], [Event.verifyCall],
        ⟨402, .paymentInvalid
          ("Payment invalid: " ++ ("Payment invalid: " ++ "invalid_signature"))⟩) := by
  have h := C2_verify_rejected_propagates cfgFixture toolFixture 1000 (by decide)
    (by decide) (some "hdr") rfl oracleRejected "invalid_signature" none rfl
    (by decide) (Except.ok (37 : Nat)) []
  exact ⟨h.1, h.2.1⟩

/-! ## Base64 and UTF-8 round trips (for C4, C6) -/

/-- Decoding inverts the alphabet on 6-bit digits. -/
theorem b64DigitOf?_charOf : ∀ d, d < 64 → b64DigitOf? (b64CharOf d) = some d := by
  decide

/-- `=` padding is skipped by the forgiving decoder. -/
theorem b64DigitOf?_pad : b64DigitOf? '=' = none := by decide

/-- Base64 round trip on byte lists. -/
theorem b64_roundtrip : ∀ (bs : List Nat), (∀ b ∈ bs, b < 256) →
    b64Decode (b64Encode bs) = bs := by
  intro bs
  induction bs using b64Encode.induct with
  | case4 => intro _; rfl
  | case3 b0 =>
    intro h
    have hb0 : b0 < 256 := h b0 (by simp)
    simp only [b64Encode, b64Decode, List.filterMap_cons,
      b64DigitOf?_charOf (b0 * 16 / 64) (by omega),
      b64DigitOf?_charOf (b0 * 16 % 64) (by omega),
      b64DigitOf?_pad, List.filterMap_nil, b64DecodeDigits, List.cons.injEq, and_true]
    omega
  | case2 b0 b1 =>
    intro h
    have hb0 : b0 < 256 := h b0 (by simp)
    have hb1 : b1 < 256 := h b1 (by simp)
    simp only [b64Encode, b64Decode, List.filterMap_cons,
      b64DigitOf?_charOf ((b0 * 1024 + b1 * 4) / 4096) (by omega),
      b64DigitOf?_charOf ((b0 * 1024 + b1 * 4) / 64 % 64) (by omega),
      b64DigitOf?_charOf ((b0 * 1024 + b1 * 4) % 64) (by omega),
      b64DigitOf?_pad, List.filterMap_nil, b64DecodeDigits, List.cons.injEq, and_true]
    exact ⟨by omega, by omega⟩
  | case1 b0 b1 b2 rest ih =>
    intro h
    have hb0 : b0 < 256 := h b0 (by simp)
    have hb1 : b1 < 256 := h b1 (by simp)
    have hb2 : b2 < 256 := h b2 (by simp)
    have hrest : ∀ b ∈ rest, b < 256 := fun b hb => h b (by simp [hb])
    have ihr := ih hrest
    simp only [b64Decode] at ihr
    simp only [b64Encode, b64Decode, List.filterMap_cons,
      b64DigitOf?_charOf ((b0 * 65536 + b1 * 256 + b2) / 262144) (by omega),
      b64DigitOf?_charOf ((b0 * 65536 + b1 * 256 + b2) / 4096 % 64) (by omega),
      b64DigitOf?_charOf ((b0 * 65536 + b1 * 256 + b2) / 64 % 64) (by omega),
      b64DigitOf?_charOf ((b0 * 65536 + b1 * 256 + b2) % 64) (by omega),
      b64DecodeDigits, List.filterMap_append, List.cons.injEq]
    refine ⟨by omega, by omega, by omega, ihr⟩

/-- An ASCII character UTF-8 encodes to its own code point. -/
theorem utf8EncodeChar_ascii (c : Char) (h : c.toNat < 128) :
    utf8EncodeChar c = [c.toNat] := by
  simp [utf8EncodeChar, h]

/-- ASCII strings UTF-8 encode byte-for-byte. -/
theorem utf8Encode_ascii : ∀ (l : List Char), allAscii l →
    (l.map utf8EncodeChar).flatten = l.map Char.toNat := by
  intro l
  induction l with
  | nil => intro _; rfl
  | cons c cs ih =>
    intro h
    have hc : c.toNat < 128 := h c (by simp)
    have hcs : allAscii cs := fun x hx => h x (by simp [hx])
    simp [utf8EncodeChar_ascii c hc, ih hcs]

/-- ASCII bytes UTF-8 decode to their own code points. -/
theorem utf8Decode_ascii : ∀ (l : List Nat), (∀ b ∈ l, b < 128) →
    utf8Decode l = l.map Char.ofNat := by
  intro l
  induction l with
  | nil => intro _; simp [utf8Decode]
  | cons b rest ih =>
    intro h
    have hb : b < 128 := h b (by simp)
    have hrest : ∀ x ∈ rest, x < 128 := fun x hx => h x (by simp [hx])
    have hstep : utf8Step b rest = (Char.ofNat b, rest) := by simp [utf8Step, hb]
    simp only [utf8Decode, hstep, ih hrest, List.map_cons]

/-- Re-coding the code points of a character list is the identity. -/
theorem map_ofNat_toNat : ∀ (l : List Char), (l.map Char.toNat).map Char.ofNat = l := by
  intro l
  induction l with
  | nil => rfl
  | cons c cs ih => simp [Char.ofNat_toNat, ih]

/-- UTF-8 round trip on ASCII character lists. -/
theorem utf8_ascii_roundtrip (l : List Char) (h : allAscii l) :
    utf8Decode ((l.map utf8EncodeChar).flatten) = l := by
  rw [utf8Encode_ascii l h, utf8Decode_ascii]
  · exact map_ofNat_toNat l
  · intro b hb
    obtain ⟨c, hc, rfl⟩ := List.mem_map.mp hb
    exact h c hc

/-! ## Decimal rendering and parsing (for the JSON round trip) -/

/-- `natToCharsAux` ignores the exact fuel, given enough of it. -/
theorem natToCharsAux_irrel : ∀ (n f1 f2 : Nat) (acc : List Char), n < f1 → n < f2 →
    natToCharsAux f1 n acc = natToCharsAux f2 n acc := by
  intro n
  induction n using Nat.strong_induction_on with
  | _ n ih =>
    intro f1 f2 acc h1 h2
    match f1, f2 with
    | g1 + 1, g2 + 1 =>
      simp only [natToCharsAux]
      by_cases hn : n < 10
      · simp [hn]
      · simp only [if_neg hn]
        exact ih (n / 10) (by omega) g1 g2 _ (by omega) (by omega)

/-- The accumulator of `natToCharsAux` is a suffix. -/
theorem natToCharsAux_acc : ∀ (n : Nat), ∀ (f : Nat) (acc : List Char), n < f →
    natToCharsAux f n acc = natToCharsAux f n [] ++ acc := by
  intro n
  induction n using Nat.strong_induction_on with
  | _ n ih =>
    intro f acc hf
    match f with
    | g + 1 =>
      simp only [natToCharsAux]
      by_cases hn : n < 10
      · simp [hn]
      · simp only [if_neg hn]
        rw [ih (n / 10) (by omega) g _ (by omega),
          ih (n / 10) (by omega) g [digitChar (n % 10)] (by omega),
          List.append_assoc]
        rfl

/-- Recursive decomposition of the decimal rendering. -/
theorem natToChars_decomp (n : Nat) :
    natToChars n = if n < 10 then [digitChar n]
      else natToChars (n / 10) ++ [digitChar (n % 10)] := by
  by_cases hn : n < 10
  · simp [natToChars, natToCharsAux, hn]
  · rw [if_neg hn]
    show natToCharsAux (n + 1) n [] = _
    rw [show natToCharsAux (n + 1) n [] = natToCharsAux n (n / 10) [digitChar (n % 10)]
        from by simp only [natToCharsAux, if_neg hn],
      natToCharsAux_acc (n / 10) n [digitChar (n % 10)] (by omega),
      natToCharsAux_irrel (n / 10) n (n / 10 + 1) [] (by omega) (by omega)]
    rfl

/-- Digits 0–9 render to decimal digit characters with code `48 + d`. -/
theorem digitChar_props : ∀ d, d < 10 →
    ((digitChar d).isDigit = true ∧ (digitChar d).toNat = 48 + d) := by decide

/-- Every character of a decimal rendering is a digit. -/
theorem natToChars_all_digits : ∀ (n : Nat), ∀ c ∈ natToChars n, c.isDigit = true := by
  intro n
  induction n using Nat.strong_induction_on with
  | _ n ih =>
    intro c hc
    rw [natToChars_decomp] at hc
    by_cases hn : n < 10
    · rw [if_pos hn] at hc
      simp only [List.mem_singleton] at hc
      exact hc ▸ (digitChar_props n hn).1
    · rw [if_neg hn] at hc
      rcases List.mem_append.mp hc with h | h
      · exact ih (n / 10) (by omega) c h
      · simp only [List.mem_singleton] at h
        exact h ▸ (digitChar_props (n % 10) (by omega)).1

/-- A decimal rendering is non-empty. -/
theorem natToChars_ne_nil (n : Nat) : natToChars n ≠ [] := by
  rw [natToChars_decomp]
  by_cases hn : n < 10 <;> simp [hn]

/-- Folding the digit characters of `n` reconstructs `n` above the shifted
accumulator. -/
theorem foldl_natToChars : ∀ (n : Nat), ∀ (acc : Nat),
    (natToChars n).foldl (fun x c => x * 10 + (c.toNat - 48)) acc
      = acc * 10 ^ (natToChars n).length + n := by
  intro n
  induction n using Nat.strong_induction_on with
  | _ n ih =>
    intro acc
    rw [natToChars_decomp]
    by_cases hn : n < 10
    · simp only [if_pos hn, List.foldl_cons, List.foldl_nil, List.length_singleton,
        pow_one, (digitChar_props n hn).2]
      omega
    · simp only [if_neg hn, List.foldl_append, List.foldl_cons, List.foldl_nil,
        List.length_append, List.length_singleton]
      rw [ih (n / 10) (by omega) acc, (digitChar_props (n % 10) (by omega)).2,
        pow_succ, ← Nat.mul_assoc]
      have hd : 48 + n % 10 - 48 = n % 10 := by omega
      rw [hd]
      omega

/-- `parseDigits` consumes a block of digit characters by folding them. -/
theorem parseDigits_block : ∀ (ds : List Char) (acc : Nat) (rest : List Char),
    (∀ c ∈ ds, c.isDigit = true) →
    parseDigits acc (ds ++ rest)
      = parseDigits (ds.foldl (fun x c => x * 10 + (c.toNat - 48)) acc) rest := by
  intro ds
  induction ds with
  | nil => intro acc rest _; rfl
  | cons c cs ih =>
    intro acc rest h
    have hc : c.isDigit = true := h c (by simp)
    simp only [List.cons_append, parseDigits, hc, if_pos, List.foldl_cons]
    exact ih _ rest (fun x hx => h x (by simp [hx]))

/-- `parseDigits` stops at a non-digit. -/
theorem parseDigits_stop (acc : Nat) (rest : List Char)
    (h : ∀ c, rest.head? = some c → c.isDigit = false) :
    parseDigits acc rest = (acc, rest) := by
  cases rest with
  | nil => rfl
  | cons c cs => simp [parseDigits, h c rfl]

/-- `parseNum` consumes exactly a decimal rendering. -/
theorem parseNum_natToChars (n : Nat) (rest : List Char)
    (h : ∀ c, rest.head? = some c → c.isDigit = false) :
    parseNum (natToChars n ++ rest) = some (n, rest) := by
  obtain ⟨c, cs, hcc⟩ := List.exists_cons_of_ne_nil (natToChars_ne_nil n)
  have hc : c.isDigit = true := natToChars_all_digits n c (by rw [hcc]; simp)
  rw [hcc, List.cons_append, parseNum, if_pos hc, ← List.cons_append, ← hcc,
    parseDigits_block (natToChars n) 0 rest (natToChars_all_digits n),
    foldl_natToChars n 0, Nat.zero_mul, Nat.zero_add, parseDigits_stop n rest h]

/-! ## Character classes and string safety (for the JSON round trip) -/

/-- `jsonSafeChar` unpacked. -/
theorem jsonSafeChar_iff (c : Char) :
    jsonSafeChar c = true ↔ (c ≠ '"' ∧ c ≠ '\\' ∧ 32 ≤ c.toNat ∧ c.toNat < 128) := by
  simp [jsonSafeChar, and_assoc]

/-- `jsonSafeStr` unpacked. -/
theorem jsonSafeStr_iff (s : String) :
    jsonSafeStr s = true ↔ ∀ c ∈ s.data, jsonSafeChar c = true := by
  simp [jsonSafeStr, List.all_eq_true]

/-- Code-point bounds make a character JSON-safe. -/
theorem safe_of_bounds (c : Char) (h32 : 32 ≤ c.toNat) (h128 : c.toNat < 128)
    (h34 : c.toNat ≠ 34) (h92 : c.toNat ≠ 92) : jsonSafeChar c = true := by
  rw [jsonSafeChar_iff]
  exact ⟨fun he => h34 (by rw [he]; rfl), fun he => h92 (by rw [he]; rfl), h32, h128⟩

/-- Decimal digit characters are JSON-safe. -/
theorem safe_of_isDigit (c : Char) (h : c.isDigit = true) : jsonSafeChar c = true := by
  simp only [Char.isDigit, Char.le_def, Bool.and_eq_true, decide_eq_true_eq] at h
  obtain ⟨h1, h2⟩ := h
  have h1n : 48 ≤ c.toNat := UInt32.le_def.mp h1
  have h2n : c.toNat ≤ 57 := UInt32.le_def.mp h2
  exact safe_of_bounds c (by omega) (by omega) (by omega) (by omega)

/-- Hexadecimal digit characters are JSON-safe. -/
theorem safe_of_isHexChar (c : Char) (h : isHexChar c = true) : jsonSafeChar c = true := by
  simp only [isHexChar, Char.isDigit, Char.le_def, Bool.or_eq_true, Bool.and_eq_true,
    decide_eq_true_eq] at h
  rcases h with (⟨h1, h2⟩ | ⟨h1, h2⟩) | ⟨h1, h2⟩
  · have h1n : 48 ≤ c.toNat := UInt32.le_def.mp h1
    have h2n : c.toNat ≤ 57 := UInt32.le_def.mp h2
    exact safe_of_bounds c (by omega) (by omega) (by omega) (by omega)
  · have h1n : 97 ≤ c.toNat := UInt32.le_def.mp h1
    have h2n : c.toNat ≤ 102 := UInt32.le_def.mp h2
    exact safe_of_bounds c (by omega) (by omega) (by omega) (by omega)
  · have h1n : 65 ≤ c.toNat := UInt32.le_def.mp h1
    have h2n : c.toNat ≤ 70 := UInt32.le_def.mp h2
    exact safe_of_bounds c (by omega) (by omega) (by omega) (by omega)

/-- Shape of a string accepted by `isValidAddress`. -/
theorem isValidAddress_shape (s : String) (h : isValidAddress s = true) :
    ∃ rest, s.data = '0' :: 'x' :: rest ∧ ∀ c ∈ rest, isHexChar c = true := by
  unfold isValidAddress at h
  split at h
  · next rest heq =>
    exact ⟨rest, heq, by
      simp only [Bool.and_eq_true, List.all_eq_true] at h
      exact fun c hc => h.2 c hc⟩
  · exact absurd h (by simp)

/-- Shape of a string accepted by `isValidTxHash`. -/
theorem isValidTxHash_shape (s : String) (h : isValidTxHash s = true) :
    ∃ rest, s.data = '0' :: 'x' :: rest ∧ ∀ c ∈ rest, isHexChar c = true := by
  unfold isValidTxHash at h
  split at h
  · next rest heq =>
    exact ⟨rest, heq, by
      simp only [Bool.and_eq_true, List.all_eq_true] at h
      exact fun c hc => h.2 c hc⟩
  · exact absurd h (by simp)

/-- Shape of a string accepted by `isHexString`. -/
theorem isHexString_shape (s : String) (h : isHexString s = true) :
    ∃ rest, s.data = '0' :: 'x' :: rest ∧ ∀ c ∈ rest, isHexChar c = true := by
  unfold isHexString at h
  split at h
  · next rest heq =>
    exact ⟨rest, heq, by
      simp only [Bool.and_eq_true, List.all_eq_true] at h
      exact fun c hc => h.2 c hc⟩
  · exact absurd h (by simp)

/-- A `0x`-hex-shaped string is JSON-safe. -/
theorem jsonSafeStr_of_0x_hex (s : String) (rest : List Char)
    (heq : s.data = '0' :: 'x' :: rest) (hhex : ∀ c ∈ rest, isHexChar c = true) :
    jsonSafeStr s = true := by
  rw [jsonSafeStr_iff, heq]
  intro c hc
  rcases hc with _ | ⟨_, hc⟩
  · decide
  · rcases hc with _ | ⟨_, hc⟩
    · decide
    · exact safe_of_isHexChar c (hhex c (by simpa using hc))

/-- An all-digit string is JSON-safe. -/
theorem jsonSafeStr_of_digits (s : String) (h : s.data.all (·.isDigit) = true) :
    jsonSafeStr s = true := by
  rw [jsonSafeStr_iff]
  simp only [List.all_eq_true, decide_eq_true_eq] at h
  exact fun c hc => safe_of_isDigit c (by simpa using h c hc)

/-- Rebuilding a string from its characters is the identity. -/
theorem string_mk_data (s : String) : (⟨s.data⟩ : String) = s := by
  cases s; rfl

/-- Safe characters are passed through unescaped by `JSON.stringify`. -/
theorem escapeChar_safe (c : Char) (h : jsonSafeChar c = true) : escapeChar c = [c] := by
  rw [jsonSafeChar_iff] at h
  obtain ⟨h1, h2, h3, _⟩ := h
  have hne : ∀ k : Nat, k < 32 → c.toNat ≠ k := fun k hk he => by omega
  simp only [escapeChar, if_neg h1, if_neg h2, if_neg (hne 8 (by omega)),
    if_neg (hne 9 (by omega)), if_neg (hne 10 (by omega)), if_neg (hne 12 (by omega)),
    if_neg (hne 13 (by omega)), if_neg (by omega : ¬ c.toNat < 32)]

/-- Escaping a safe character list is the identity. -/
theorem flatten_escape_safe : ∀ (l : List Char), (∀ c ∈ l, jsonSafeChar c = true) →
    (l.map escapeChar).flatten = l := by
  intro l
  induction l with
  | nil => intro _; rfl
  | cons c cs ih =>
    intro h
    simp only [List.map_cons, List.flatten_cons, escapeChar_safe c (h c (by simp)),
      List.singleton_append, ih (fun x hx => h x (by simp [hx]))]

/-- `JSON.stringify` of a safe string is plain quoting. -/
theorem renderString_safe (s : String) (h : jsonSafeStr s = true) :
    renderString s = '"' :: s.data ++ ['"'] := by
  rw [renderString, flatten_escape_safe s.data ((jsonSafeStr_iff s).mp h)]

/-- The string-literal parser consumes exactly a safely quoted body. -/
theorem parseStrBody_safe : ∀ (cs : List Char),
    (∀ c ∈ cs, jsonSafeChar c = true) → ∀ (rest : List Char),
    parseStrBody (cs ++ '"' :: rest) = some (cs, rest) := by
  intro cs
  induction cs with
  | nil =>
    intro _ rest
    rw [List.nil_append, parseStrBody.eq_def]
    simp
  | cons c cs ih =>
    intro h rest
    have hc := (jsonSafeChar_iff c).mp (h c (by simp))
    obtain ⟨h1, h2, h3, -⟩ := hc
    rw [List.cons_append, parseStrBody.eq_def]
    simp only [if_neg h1, if_neg h2, if_neg (by omega : ¬ c.toNat < 32),
      ih (fun x hx => h x (by simp [hx])) rest]
    rfl

/-- `skipWs` does not move past a non-whitespace head. -/
theorem skipWs_no_ws (c : Char) (cs : List Char) (h : isJsonWs c = false) :
    skipWs (c :: cs) = c :: cs := by
  simp [skipWs, List.dropWhile_cons, h]

/-- A digit character is not JSON whitespace. -/
theorem isJsonWs_of_digit (c : Char) (h : c.isDigit = true) : isJsonWs c = false := by
  cases hw : isJsonWs c
  · rfl
  · simp only [isJsonWs, Bool.or_eq_true, decide_eq_true_eq] at hw
    rcases hw with ((rfl | rfl) | rfl) | rfl <;> exact absurd h (by decide)

/-- `parseValue` consumes exactly a rendered safe string. -/
theorem parseValue_str (f : Nat) (s : String) (rest : List Char)
    (h : jsonSafeStr s = true) :
    parseValue (f + 1) (renderString s ++ rest) = some (.str s, rest) := by
  rw [renderString_safe s h,
    show (('"' :: s.data ++ ['"']) ++ rest) = '"' :: (s.data ++ '"' :: rest) by simp]
  simp only [parseValue]
  rw [skipWs_no_ws _ _ (by decide)]
  simp [parseStrBody_safe s.data ((jsonSafeStr_iff s).mp h) rest, string_mk_data]

/-- `parseValue` consumes exactly a rendered number when what follows cannot
extend it. -/
theorem parseValue_num (f : Nat) (n : Nat) (rest : List Char)
    (hrest : ∀ c, rest.head? = some c → c.isDigit = false) :
    parseValue (f + 1) (natToChars n ++ rest) = some (.num n, rest) := by
  obtain ⟨c, cs, hcc⟩ := List.exists_cons_of_ne_nil (natToChars_ne_nil n)
  have hc : c.isDigit = true := natToChars_all_digits n c (by rw [hcc]; simp)
  have hlit : ∀ x : Char, x.isDigit = true → x ≠ '{' ∧ x ≠ '[' ∧ x ≠ '"' ∧
      x ≠ 'n' ∧ x ≠ 't' ∧ x ≠ 'f' := by
    intro x hx
    refine ⟨?_, ?_, ?_, ?_, ?_, ?_⟩ <;> intro he <;> rw [he] at hx <;>
      exact absurd hx (by decide)
  obtain ⟨hb1, hb2, hb3, hb4, hb5, hb6⟩ := hlit c hc
  rw [hcc, List.cons_append]
  simp only [parseValue]
  rw [skipWs_no_ws _ _ (isJsonWs_of_digit c hc)]
  simp only [if_neg hb1, if_neg hb2, if_neg hb3, if_neg hb4, if_neg hb5, if_neg hb6,
    if_pos hc]
  rw [← List.cons_append, ← hcc, parseNum_natToChars n rest hrest]
  rfl

/-- One `"key": value ,` member step of the object-member parser. -/
theorem parseMembers_cons (f : Nat) (k : String) (hk : jsonSafeStr k = true)
    (v : Json) (valChars tail : List Char)
    (hval : parseValue (f + 1) (valChars ++ ',' :: tail) = some (v, ',' :: tail)) :
    parseMembers (f + 2) (renderString k ++ ':' :: valChars ++ ',' :: tail)
      = (parseMembers (f + 1) tail).map (fun r => ((k, v) :: r.1, r.2)) := by
  conv_lhs =>
    rw [renderString_safe k hk,
      show (('"' :: k.data ++ ['"']) ++ ':' :: valChars ++ ',' :: tail)
        = '"' :: (k.data ++ '"' :: (':' :: (valChars ++ ',' :: tail))) by simp]
    rw [show parseMembers (f + 2) = parseMembers (f + 1 + 1) from rfl]
  rw [parseMembers.eq_def]
  simp only []
  rw [skipWs_no_ws _ _ (by decide)]
  simp only [if_pos rfl, parseStrBody_safe k.data ((jsonSafeStr_iff k).mp hk),
    Option.bind_eq_bind, Option.some_bind]
  rw [skipWs_no_ws _ _ (by decide)]
  simp only [if_pos rfl, hval, Option.some_bind]
  rw [skipWs_no_ws _ _ (by decide)]
  simp only [if_pos rfl, string_mk_data]
  simp

/-- The final `"key": value }` member step of the object-member parser. -/
theorem parseMembers_last (f : Nat) (k : String) (hk : jsonSafeStr k = true)
    (v : Json) (valChars tail : List Char)
    (hval : parseValue (f + 1) (valChars ++ '}' :: tail) = some (v, '}' :: tail)) :
    parseMembers (f + 2) (renderString k ++ ':' :: valChars ++ '}' :: tail)
      = some ([(k, v)], tail) := by
  conv_lhs =>
    rw [renderString_safe k hk,
      show (('"' :: k.data ++ ['"']) ++ ':' :: valChars ++ '}' :: tail)
        = '"' :: (k.data ++ '"' :: (':' :: (valChars ++ '}' :: tail))) by simp]
    rw [show parseMembers (f + 2) = parseMembers (f + 1 + 1) from rfl]
  rw [parseMembers.eq_def]
  simp only []
  rw [skipWs_no_ws _ _ (by decide)]
  simp only [if_pos rfl, parseStrBody_safe k.data ((jsonSafeStr_iff k).mp hk),
    Option.bind_eq_bind, Option.some_bind]
  rw [skipWs_no_ws _ _ (by decide)]
  simp only [if_pos rfl, hval, Option.some_bind]
  rw [skipWs_no_ws _ _ (by decide)]
  simp only [string_mk_data]
  simp

/-- The rendering of a non-empty member list starts with a quote. -/
theorem renderFields_expose (k : String) (hk : jsonSafeStr k = true) (v : Json)
    (fs : List (String × Json)) (tail : List Char) :
    ∃ body, renderFields ((k, v) :: fs) ++ tail = '"' :: body := by
  cases fs with
  | nil =>
    simp only [renderFields, renderString_safe k hk, List.cons_append, List.append_assoc]
    exact ⟨_, rfl⟩
  | cons q fs' =>
    simp only [renderFields, renderString_safe k hk, List.cons_append, List.append_assoc]
    exact ⟨_, rfl⟩

/-- `parseValue` consumes a rendered non-empty object whose members parse. -/
theorem parseValue_obj (f : Nat) (k0 : String) (hk0 : jsonSafeStr k0 = true) (v0 : Json)
    (fs : List (String × Json)) (rest : List Char)
    (hmem : parseMembers f (renderFields ((k0, v0) :: fs) ++ '}' :: rest)
      = some ((k0, v0) :: fs, rest)) :
    parseValue (f + 1) (renderJson (.obj ((k0, v0) :: fs)) ++ rest)
      = some (.obj ((k0, v0) :: fs), rest) := by
  obtain ⟨body, hbody⟩ := renderFields_expose k0 hk0 v0 fs ('}' :: rest)
  rw [show renderJson (.obj ((k0, v0) :: fs)) ++ rest
      = '{' :: (renderFields ((k0, v0) :: fs) ++ '}' :: rest) by
    simp only [renderJson]
    simp]
  simp only [parseValue]
  rw [skipWs_no_ws _ _ (by decide)]
  simp only [if_pos rfl, if_true]
  rw [hbody, skipWs_no_ws _ _ (by decide)]
  simp only [if_neg (by decide : ¬ ('"' : Char) = '}')]
  rw [← hbody, hmem]
  rfl

/-- Member step at the `renderFields`/`renderJson` level (non-final member). -/
theorem parseMembers_field_cons (f : Nat) (k : String) (hk : jsonSafeStr k = true)
    (v : Json) (fs : List (String × Json)) (tail : List Char)
    (hunf : renderFields ((k, v) :: fs)
      = renderString k ++ ':' :: renderJson v ++ ',' :: renderFields fs)
    (hval : parseValue (f + 1) (renderJson v ++ ',' :: (renderFields fs ++ tail))
      = some (v, ',' :: (renderFields fs ++ tail))) :
    parseMembers (f + 2) (renderFields ((k, v) :: fs) ++ tail)
      = (parseMembers (f + 1) (renderFields fs ++ tail)).map
          (fun r => ((k, v) :: r.1, r.2)) := by
  rw [hunf, show (renderString k ++ ':' :: renderJson v ++ ',' :: renderFields fs) ++ tail
    = renderString k ++ ':' :: renderJson v ++ ',' :: (renderFields fs ++ tail) by simp]
  exact parseMembers_cons f k hk v (renderJson v) (renderFields fs ++ tail) hval

/-- Member step at the `renderFields`/`renderJson` level (final member). -/
theorem parseMembers_field_last (f : Nat) (k : String) (hk : jsonSafeStr k = true)
    (v : Json) (tail : List Char)
    (hval : parseValue (f + 1) (renderJson v ++ '}' :: tail) = some (v, '}' :: tail)) :
    parseMembers (f + 2) (renderFields [(k, v)] ++ '}' :: tail) = some ([(k, v)], tail) := by
  rw [show renderFields [(k, v)] = renderString k ++ ':' :: renderJson v from rfl,
    show (renderString k ++ ':' :: renderJson v) ++ '}' :: tail
      = renderString k ++ ':' :: renderJson v ++ '}' :: tail by simp]
  exact parseMembers_last f k hk v (renderJson v) tail hval

/-- The string fields of a valid payload are JSON-safe, and its asset is
non-empty. -/
theorem valid_payload_safety (p : CronosPaymentPayload)
    (hp : ValidPaymentPayload p = true) :
    jsonSafeStr p.scheme = true ∧ jsonSafeStr p.network = true ∧
    jsonSafeStr p.payload.from_ = true ∧ jsonSafeStr p.payload.to_ = true ∧
    jsonSafeStr p.payload.value = true ∧ jsonSafeStr p.payload.nonce = true ∧
    jsonSafeStr p.payload.signature = true ∧ jsonSafeStr p.payload.asset = true ∧
    p.payload.asset ≠ "" := by
  simp only [ValidPaymentPayload, Bool.and_eq_true] at hp
  obtain ⟨⟨⟨⟨⟨⟨⟨⟨hvp, hfrom⟩, hto⟩, hasset⟩, hvne, hvdig⟩, hnonce⟩, hsig⟩, hsch⟩, hnet⟩ := hp
  obtain ⟨rf, hrf, hxf⟩ := isValidAddress_shape _ hfrom
  obtain ⟨rt, hrt, hxt⟩ := isValidAddress_shape _ hto
  obtain ⟨ra, hra, hxa⟩ := isValidAddress_shape _ hasset
  obtain ⟨rn, hrn, hxn⟩ := isValidTxHash_shape _ hnonce
  obtain ⟨rs, hrs, hxs⟩ := isHexString_shape _ hsig
  refine ⟨hsch, hnet, jsonSafeStr_of_0x_hex _ rf hrf hxf,
    jsonSafeStr_of_0x_hex _ rt hrt hxt, jsonSafeStr_of_digits _ hvdig,
    jsonSafeStr_of_0x_hex _ rn hrn hxn, jsonSafeStr_of_0x_hex _ rs hrs hxs,
    jsonSafeStr_of_0x_hex _ ra hra hxa, ?_⟩
  intro he
  rw [he] at hra
  exact absurd hra (by simp)

/-- The JSON parser applied to the rendered JSON image of a valid payment
payload recovers exactly that image (with any fuel margin and trailing
input). -/
theorem parse_render_payload (p : CronosPaymentPayload)
    (hp : ValidPaymentPayload p = true) (g : Nat) (rest : List Char) :
    parseValue (g + 15) (renderJson (jsonOfPayload p) ++ rest)
      = some (jsonOfPayload p, rest) := by
  obtain ⟨hsch, hnet, hfrom, hto, hval, hnonce, hsig, hasset, -⟩ :=
    valid_payload_safety p hp
  have pvnum : ∀ (f n : Nat) (rest : List Char),
      (∀ c, rest.head? = some c → c.isDigit = false) →
      parseValue (f + 1) (renderJson (Json.num n) ++ rest)
        = some (Json.num n, rest) := by
    intro f n rest h
    exact parseValue_num f n rest h
  have hcomma : ∀ (t : List Char) (c : Char),
      (',' :: t).head? = some c → c.isDigit = false := by
    intro t c hc
    simp at hc
    subst hc
    decide
  have hbrace : ∀ (t : List Char) (c : Char),
      ('}' :: t).head? = some c → c.isDigit = false := by
    intro t c hc
    simp at hc
    subst hc
    decide
  have hInner : ∀ f tail, parseMembers (f + 9)
      (renderFields [("from", Json.str p.payload.from_), ("to", Json.str p.payload.to_),
        ("value", Json.str p.payload.value),
        ("validAfter", Json.num p.payload.validAfter),
        ("validBefore", Json.num p.payload.validBefore),
        ("nonce", Json.str p.payload.nonce),
        ("signature", Json.str p.payload.signature),
        ("asset", Json.str p.payload.asset)] ++ '}' :: tail)
      = some ([("from", Json.str p.payload.from_), ("to", Json.str p.payload.to_),
          ("value", Json.str p.payload.value),
          ("validAfter", Json.num p.payload.validAfter),
          ("validBefore", Json.num p.payload.validBefore),
          ("nonce", Json.str p.payload.nonce),
          ("signature", Json.str p.payload.signature),
          ("asset", Json.str p.payload.asset)], tail) := by
    intro f tail
    rw [(by omega : f + 9 = f + 7 + 2),
      parseMembers_field_cons (f + 7) "from" (by decide) _ _ ('}' :: tail) (by rfl)
        (parseValue_str (f + 7) p.payload.from_ _ hfrom),
      (by omega : f + 7 + 1 = f + 6 + 2),
      parseMembers_field_cons (f + 6) "to" (by decide) _ _ ('}' :: tail) (by rfl)
        (parseValue_str (f + 6) p.payload.to_ _ hto),
      (by omega : f + 6 + 1 = f + 5 + 2),
      parseMembers_field_cons (f + 5) "value" (by decide) _ _ ('}' :: tail) (by rfl)
        (parseValue_str (f + 5) p.payload.value _ hval),
      (by omega : f + 5 + 1 = f + 4 + 2),
      parseMembers_field_cons (f + 4) "validAfter" (by decide) _ _ ('}' :: tail) (by rfl)
        (pvnum (f + 4) p.payload.validAfter _ (hcomma _)),
      (by omega : f + 4 + 1 = f + 3 + 2),
      parseMembers_field_cons (f + 3) "validBefore" (by decide) _ _ ('}' :: tail) (by rfl)
        (pvnum (f + 3) p.payload.validBefore _ (hcomma _)),
      (by omega : f + 3 + 1 = f + 2 + 2),
      parseMembers_field_cons (f + 2) "nonce" (by decide) _ _ ('}' :: tail) (by rfl)
        (parseValue_str (f + 2) p.payload.nonce _ hnonce),
      (by omega : f + 2 + 1 = f + 1 + 2),
      parseMembers_field_cons (f + 1) "signature" (by decide) _ _ ('}' :: tail) (by rfl)
        (parseValue_str (f + 1) p.payload.signature _ hsig),
      (by omega : f + 1 + 1 = f + 2),
      parseMembers_field_last f "asset" (by decide) _ tail
        (parseValue_str f p.payload.asset _ hasset)]
    rfl
  have hObjInner : ∀ f tail,
      parseValue (f + 10) (renderJson (Json.obj
        [("from", Json.str p.payload.from_), ("to", Json.str p.payload.to_),
         ("value", Json.str p.payload.value),
         ("validAfter", Json.num p.payload.validAfter),
         ("validBefore", Json.num p.payload.validBefore),
         ("nonce", Json.str p.payload.nonce),
         ("signature", Json.str p.payload.signature),
         ("asset", Json.str p.payload.asset)]) ++ tail)
      = some (Json.obj
          [("from", Json.str p.payload.from_), ("to", Json.str p.payload.to_),
           ("value", Json.str p.payload.value),
           ("validAfter", Json.num p.payload.validAfter),
           ("validBefore", Json.num p.payload.validBefore),
           ("nonce", Json.str p.payload.nonce),
           ("signature", Json.str p.payload.signature),
           ("asset", Json.str p.payload.asset)], tail) := by
    intro f tail
    rw [(by omega : f + 10 = f + 9 + 1)]
    exact parseValue_obj (f + 9) "from" (by decide) _ _ tail (hInner f tail)
  rw [(by omega : g + 15 = g + 14 + 1)]
  simp only [jsonOfPayload]
  refine parseValue_obj (g + 14) "x402Version" (by decide) _ _ rest ?_
  rw [(by omega : g + 14 = g + 12 + 2),
    parseMembers_field_cons (g + 12) "x402Version" (by decide) _ _ ('}' :: rest) (by rfl)
      (pvnum (g + 12) p.x402Version _ (hcomma _)),
    (by omega : g + 12 + 1 = g + 11 + 2),
    parseMembers_field_cons (g + 11) "scheme" (by decide) _ _ ('}' :: rest) (by rfl)
      (parseValue_str (g + 11) p.scheme _ hsch),
    (by omega : g + 11 + 1 = g + 10 + 2),
    parseMembers_field_cons (g + 10) "network" (by decide) _ _ ('}' :: rest) (by rfl)
      (parseValue_str (g + 10) p.network _ hnet),
    (by omega : g + 10 + 1 = g + 9 + 2),
    parseMembers_field_last (g + 9) "payload" (by decide) _ rest
      (hObjInner g ('}' :: rest))]
  rfl

/-- The empty list is ASCII. -/
theorem allAscii_nil : allAscii [] := by
  intro c hc
  cases hc

/-- ASCII-ness of a cons, split. -/
theorem allAscii_cons (c : Char) (l : List Char) :
    allAscii (c :: l) ↔ c.toNat < 128 ∧ allAscii l := by
  simp [allAscii]

/-- ASCII-ness of an append, split. -/
theorem allAscii_append (l1 l2 : List Char) :
    allAscii (l1 ++ l2) ↔ allAscii l1 ∧ allAscii l2 := by
  unfold allAscii
  constructor
  · intro h
    exact ⟨fun c hc => h c (by simp [hc]), fun c hc => h c (by simp [hc])⟩
  · rintro ⟨h1, h2⟩ c hc
    rcases List.mem_append.mp hc with h | h
    · exact h1 c h
    · exact h2 c h

/-- A JSON-safe character is ASCII. -/
theorem ascii_of_safe (c : Char) (h : jsonSafeChar c = true) : c.toNat < 128 := by
  simp only [jsonSafeChar, Bool.and_eq_true, decide_eq_true_eq] at h
  exact h.2

/-- The rendered form of a safe string is ASCII. -/
theorem allAscii_renderString (s : String) (h : jsonSafeStr s = true) :
    allAscii (renderString s) := by
  rw [renderString_safe s h]
  rw [allAscii_append, allAscii_cons]
  refine ⟨⟨by decide, fun c hc => ascii_of_safe c ((jsonSafeStr_iff s).mp h c hc)⟩, ?_⟩
  intro c hc
  simp at hc
  subst hc
  decide

/-- Rendered decimal digits are ASCII. -/
theorem allAscii_natToChars (n : Nat) : allAscii (natToChars n) := by
  intro c hc
  have h := natToChars_all_digits n c hc
  simp only [Char.isDigit, Bool.and_eq_true, decide_eq_true_eq] at h
  have h2 : c.val.toNat ≤ 57 := UInt32.le_def.mp h.2
  show c.val.toNat < 128
  omega

/-- The rendered JSON image of a valid payment payload is pure ASCII. -/
theorem allAscii_renderJson_payload (p : CronosPaymentPayload)
    (hp : ValidPaymentPayload p = true) :
    allAscii (renderJson (jsonOfPayload p)) := by
  obtain ⟨hsch, hnet, hfrom, hto, hval, hnonce, hsig, hasset, -⟩ :=
    valid_payload_safety p hp
  simp only [jsonOfPayload, renderJson, renderFields, List.cons_append,
    List.append_assoc, allAscii_cons, allAscii_append, allAscii_nil, and_true]
  refine ⟨by decide, allAscii_renderString _ (by decide), by decide,
    allAscii_natToChars _, by decide, allAscii_renderString _ (by decide), by decide,
    allAscii_renderString _ hsch, by decide, allAscii_renderString _ (by decide),
    by decide, allAscii_renderString _ hnet, by decide,
    allAscii_renderString _ (by decide), by decide, by decide,
    allAscii_renderString _ (by decide), by decide, allAscii_renderString _ hfrom,
    by decide, allAscii_renderString _ (by decide), by decide,
    allAscii_renderString _ hto, by decide, allAscii_renderString _ (by decide),
    by decide, allAscii_renderString _ hval, by decide,
    allAscii_renderString _ (by decide), by decide, allAscii_natToChars _,
    by decide, allAscii_renderString _ (by decide), by decide,
    allAscii_natToChars _, by decide, allAscii_renderString _ (by decide),
    by decide, allAscii_renderString _ hnonce, by decide,
    allAscii_renderString _ (by decide), by decide, allAscii_renderString _ hsig,
    by decide, allAscii_renderString _ (by decide), by decide,
    allAscii_renderString _ hasset, by decide, by decide⟩

/-- Base64-decoding and UTF-8-decoding an encoded header recovers the exact
`JSON.stringify` output. -/
theorem decode_encode_header (p : CronosPaymentPayload)
    (hp : ValidPaymentPayload p = true) :
    decodeHeaderString (encodePaymentHeader p) = ⟨renderJson (jsonOfPayload p)⟩ := by
  have hA := allAscii_renderJson_payload p hp
  show (⟨utf8Decode (b64Decode
    (b64Encode (utf8Encode ⟨renderJson (jsonOfPayload p)⟩)))⟩ : String) = _
  have hbytes : ∀ b ∈ utf8Encode ⟨renderJson (jsonOfPayload p)⟩, b < 256 := by
    show ∀ b ∈ ((renderJson (jsonOfPayload p)).map utf8EncodeChar).flatten, b < 256
    rw [utf8Encode_ascii _ hA]
    intro b hb
    obtain ⟨c, hc, rfl⟩ := List.mem_map.mp hb
    have := hA c hc
    omega
  rw [b64_roundtrip _ hbytes]
  show (⟨utf8Decode (((renderJson (jsonOfPayload p)).map utf8EncodeChar).flatten)⟩
    : String) = _
  rw [utf8_ascii_roundtrip _ hA]

/-- `JSON.parse` inverts `JSON.stringify` on the image of a valid payment
payload. -/
theorem jsonParse_render (p : CronosPaymentPayload)
    (hp : ValidPaymentPayload p = true) :
    jsonParse ⟨renderJson (jsonOfPayload p)⟩ = some (jsonOfPayload p) := by
  show (match parseValue ((renderJson (jsonOfPayload p)).length + 64)
      (renderJson (jsonOfPayload p)) with
    | some (j, rest) => if skipWs rest = [] then some j else none
    | none => none) = some (jsonOfPayload p)
  have h := parse_render_payload p hp ((renderJson (jsonOfPayload p)).length + 49) []
  rw [List.append_nil] at h
  rw [(by omega : (renderJson (jsonOfPayload p)).length + 64
    = (renderJson (jsonOfPayload p)).length + 49 + 15), h]
  rfl

/-- Field-by-field readback of the JSON image recovers the payload. -/
theorem payloadOfJson_jsonOfPayload (p : CronosPaymentPayload) :
    payloadOfJson (jsonOfPayload p) = some p := rfl

/-- A concrete valid payment payload. -/
def payloadFixture : CronosPaymentPayload :=
  { x402Version := 1, scheme := "exact", network := "cronos-testnet",
    payload :=
      { from_ := "0xaaaaaaaaaaaaaaaaaaaaaaaaaaaaaaaaaaaaaaaa",
        to_ := "0xbbbbbbbbbbbbbbbbbbbbbbbbbbbbbbbbbbbbbbbb",
        value := "1000", validAfter := 0, validBefore := 342,
        nonce := "0xcccccccccccccccccccccccccccccccccccccccccccccccccccccccccccccccc",
        signature := "0x1234",
        asset := "0xdddddddddddddddddddddddddddddddddddddddd" } }

/-- C4: for every valid `PaymentPayload p`, both header decoders invert
`encodePaymentHeader p` — the base64 payload decodes and `JSON.parse`s to the
exact JSON image of `p`, whose field readback recovers `p` — and that parsed
output carries a non-empty `payload.asset` member. -/
theorem C4_header_roundtrip (p : CronosPaymentPayload)
    (hp : ValidPaymentPayload p = true) :
    ∃ j, decodePaymentHeader (encodePaymentHeader p) = .ok j ∧
      parsePaymentHeader (encodePaymentHeader p) = .ok j ∧
      payloadOfJson j = some p ∧
      ∃ inner a, jsonGet j "payload" = some inner ∧
        jsonGet inner "asset" = some (.str a) ∧ a ≠ "" := by
  obtain ⟨-, -, -, -, -, -, -, -, hane⟩ := valid_payload_safety p hp
  refine ⟨jsonOfPayload p, ?_, ?_, payloadOfJson_jsonOfPayload p,
    ⟨_, p.payload.asset, rfl, rfl, hane⟩⟩
  · simp only [decodePaymentHeader, jsonParseE, decode_encode_header p hp,
      jsonParse_render p hp]
  · simp only [parsePaymentHeader, jsonParseE, decode_encode_header p hp,
      jsonParse_render p hp]

/-- C4 witness: the round trip at a concrete valid payload. -/
theorem C4_header_roundtrip_witness :
    ValidPaymentPayload payloadFixture = true ∧
    ∃ j, decodePaymentHeader (encodePaymentHeader payloadFixture) = .ok j ∧
      parsePaymentHeader (encodePaymentHeader payloadFixture) = .ok j ∧
      payloadOfJson j = some payloadFixture ∧
      ∃ inner a, jsonGet j "payload" = some inner ∧
        jsonGet inner "asset" = some (.str a) ∧ a ≠ "" :=
  ⟨by decide, C4_header_roundtrip payloadFixture (by decide)⟩

/-- Decoding the non-base64 header `"!!!"` yields the empty string (Node's
forgiving base64 decoder drops every non-alphabet character). -/
theorem decodeHeaderString_bang : decodeHeaderString "!!!" = "" := by
  show (⟨utf8Decode (b64Decode "!!!".data)⟩ : String) = ""
  have hb : b64Decode "!!!".data = [] := by decide
  rw [hb, utf8Decode]

/-- `JSON.parse("")` throws a `SyntaxError`. -/
theorem jsonParse_empty : jsonParse "" = none := rfl

/-- C6 counterexample: on the invalid header `"!!!"`, `decodePaymentHeader`
of `payment/signing.ts` — which wraps base64-decode + `JSON.parse` in no
`try`/`catch` — lets the raw `JSON.parse` `SyntaxError` escape instead of
returning the typed malformed-header error. -/
theorem C6_counterexample :
    decodePaymentHeader "!!!" = .error (.jsonSyntaxError "") ∧
    decodePaymentHeader "!!!" ≠ .error .malformedHeader := by
  have h : decodePaymentHeader "!!!" = .error (.jsonSyntaxError "") := by
    simp only [decodePaymentHeader, jsonParseE, decodeHeaderString_bang,
      jsonParse_empty]
  exact ⟨h, by rw [h]; intro hc; cases hc⟩

/-- C6 (amended): `parsePaymentHeader` of `core/utils.ts` is fully guarded —
it either returns a parsed value or the typed malformed-header error, never a
raw `SyntaxError`; `decodePaymentHeader` of `payment/signing.ts`, by contrast,
propagates the raw `JSON.parse` exception whenever the decoded bytes are not
valid JSON. -/
theorem C6_typed_errors :
    (∀ s, (∃ j, parsePaymentHeader s = .ok j) ∨
      parsePaymentHeader s = .error .malformedHeader) ∧
    (∀ s, jsonParse (decodeHeaderString s) = none →
      decodePaymentHeader s = .error (.jsonSyntaxError (decodeHeaderString s))) := by
  constructor
  · intro s
    cases h : jsonParseE (decodeHeaderString s) with
    | ok j => exact Or.inl ⟨j, by simp only [parsePaymentHeader, h]⟩
    | error e => exact Or.inr (by simp only [parsePaymentHeader, h])
  · intro s hs
    simp only [decodePaymentHeader, jsonParseE, hs]

/-- C6 witness: the amended behaviour at the concrete header `"!!!"`. -/
theorem C6_typed_errors_witness :
    (∃ j, parsePaymentHeader "!!!" = .ok j) ∨
      parsePaymentHeader "!!!" = .error .malformedHeader :=
  C6_typed_errors.1 "!!!"


end CronosMCP
